import Mathlib

/-!
Verification of the rtsp-types crate: a shallow embedding of its wire
parser (src/parser.rs), serializer (src/serializer.rs), owned message
model and builders (src/message.rs, src/message_ref.rs), header map and
header-name comparisons (src/headers/types.rs), status-code conversions
(src/lib.rs) and the typed CSeq header (src/headers/cseq.rs).

Bytes are modelled as natural numbers below 256; byte strings as
List Nat.  Rust strings (always valid UTF-8) are byte lists for which
utf8Valid holds.  The BTreeMap of headers is modelled by its sorted
association list; map operations mirror BTreeMap semantics (an insert
or append on an existing key keeps the stored key and changes only the
value).
-/

namespace Rtsp

/-- Bytes of a string literal (each char is ASCII in every use below). -/
def str (s : String) : List Nat := s.data.map Char.toNat

/-- nom is_alphanumeric plus the RTSP token punctuation set from
token in src/parser.rs (bytes of the 15 punctuation characters). -/
def isTokenChar (b : Nat) : Bool :=
  (65 ≤ b && b ≤ 90) || (97 ≤ b && b ≤ 122) || (48 ≤ b && b ≤ 57) ||
  b == 33 || b == 35 || b == 36 || b == 37 || b == 38 || b == 39 || b == 42 ||
  b == 43 || b == 45 || b == 46 || b == 94 || b == 95 || b == 96 || b == 124 || b == 126

/-- nom is_digit: ASCII digit byte. -/
def isDigitB (b : Nat) : Bool := 48 ≤ b && b ≤ 57

/-- nom is_space: space or horizontal tab. -/
def isSpaceB (b : Nat) : Bool := b == 32 || b == 9

/-- is_vchar in src/parser.rs: printable ASCII, 33..126. -/
def isVcharB (b : Nat) : Bool := 32 < b && b ≤ 126

/-- u8::make_ascii_lowercase. -/
def foldCase (b : Nat) : Nat := if 65 ≤ b && b ≤ 90 then b + 32 else b

/-- u8::to_ascii_uppercase. -/
def upCase (b : Nat) : Nat := if 97 ≤ b && b ≤ 122 then b - 32 else b

/-- UTF-8 continuation byte. -/
def isUtf8Cont (b : Nat) : Bool := 128 ≤ b && b ≤ 191

/-- UTF-8 validation automaton (RFC 3629 table), modelling std
str::from_utf8 succeeding.  State 0 expects a leading byte; a positive
state expects that many continuation bytes, the next one bounded below
by lo and above by hi (later continuation bytes use 128 to 191). -/
def utf8Auto : Nat → Nat → Nat → List Nat → Bool
  | 0, _, _, [] => true
  | 0, _, _, b :: rest =>
    if b ≤ 127 then utf8Auto 0 0 0 rest
    else if 194 ≤ b && b ≤ 223 then utf8Auto 1 128 191 rest
    else if b == 224 then utf8Auto 2 160 191 rest
    else if 225 ≤ b && b ≤ 236 then utf8Auto 2 128 191 rest
    else if b == 237 then utf8Auto 2 128 159 rest
    else if 238 ≤ b && b ≤ 239 then utf8Auto 2 128 191 rest
    else if b == 240 then utf8Auto 3 144 191 rest
    else if 241 ≤ b && b ≤ 243 then utf8Auto 3 128 191 rest
    else if b == 244 then utf8Auto 3 128 143 rest
    else false
  | _ + 1, _, _, [] => false
  | n + 1, lo, hi, c :: rest => (lo ≤ c && c ≤ hi) && utf8Auto n 128 191 rest

/-- Validity of a byte list as UTF-8. -/
def utf8Valid (l : List Nat) : Bool := utf8Auto 0 0 0 l

/-- Digit-fold step of unsigned decimal parsing; none on a non-digit. -/
def digitsVal : List Nat → Nat → Option Nat
  | [], acc => some acc
  | b :: rest, acc => if isDigitB b then digitsVal rest (acc * 10 + (b - 48)) else none

/-- Rust str::parse for an unsigned integer type whose modulus is bound:
an optional leading plus sign, then at least one digit, no other bytes,
and overflow (a value reaching bound) is an error. -/
def parseUnsigned (bound : Nat) (l : List Nat) : Option Nat :=
  let digits := if l.head? = some 43 then l.tail else l
  if digits = [] then none
  else
    match digitsVal digits 0 with
    | some n => if n < bound then some n else none
    | none => none

/-- The numeric value of a digit string (helper for stating facts
about parseUnsigned on digit lists). -/
def digitsNat (l : List Nat) : Nat := l.foldl (fun a b => a * 10 + (b - 48)) 0

/-- Decimal rendering of a natural number, as written by Display for
unsigned integers (used by format and write in the sources). -/
def decimalBytes (n : Nat) : List Nat :=
  if h : n < 10 then [48 + n] else decimalBytes (n / 10) ++ [48 + n % 10]
termination_by n
decreasing_by exact Nat.div_lt_self (by omega) (by omega)

/-- u8 comparison, as used byte by byte by Ord for HeaderName. -/
def byteCmp (x y : Nat) : Ordering :=
  if x < y then .lt else if y < x then .gt else .eq

/-- Ord for HeaderName in src/headers/types.rs: ASCII-case-folded
lexicographic byte comparison, ties broken by length.  The source
compares the common prefix and then the lengths; the recursion below
computes the same ordering. -/
def nameCmp : List Nat → List Nat → Ordering
  | [], [] => .eq
  | [], _ :: _ => .lt
  | _ :: _, [] => .gt
  | x :: xs, y :: ys =>
    match byteCmp (foldCase x) (foldCase y) with
    | .eq => nameCmp xs ys
    | o => o

/-- PartialEq for HeaderName: equal lengths and case-folded equal bytes. -/
def nameEqB : List Nat → List Nat → Bool
  | [], [] => true
  | x :: xs, y :: ys => (foldCase x == foldCase y) && nameEqB xs ys
  | _, _ => false

/-- The byte sequence that Hash for HeaderName feeds to the Hasher:
each raw byte of the stored name, with no case folding
(src/headers/types.rs lines 265 to 274). -/
def nameHashBytes (n : List Nat) : List Nat := n

/-- A header map entry: stored name and value bytes. -/
abbrev HeaderR := List Nat × List Nat

/-- The Headers BTreeMap, as its ordered association list. -/
abbrev HeadersL := List HeaderR

/-- BTreeMap::get with the case-insensitive Ord of HeaderName. -/
def hdrGet : HeadersL → List Nat → Option (List Nat)
  | [], _ => none
  | (k, w) :: rest, n => if nameCmp n k = .eq then some w else hdrGet rest n

/-- Headers::insert: replace the value of an existing (case-insensitively
equal) key, keeping the stored key, or insert at the ordered position. -/
def hdrInsert : HeadersL → List Nat → List Nat → HeadersL
  | [], n, v => [(n, v)]
  | (k, w) :: rest, n, v =>
    match nameCmp n k with
    | .lt => (n, v) :: (k, w) :: rest
    | .eq => (k, v) :: rest
    | .gt => (k, w) :: hdrInsert rest n v

/-- Headers::append: push a comma-space separator and the new value onto
an existing value, or insert at the ordered position when absent. -/
def hdrAppend : HeadersL → List Nat → List Nat → HeadersL
  | [], n, v => [(n, v)]
  | (k, w) :: rest, n, v =>
    match nameCmp n k with
    | .lt => (n, v) :: (k, w) :: rest
    | .eq => (k, w ++ str (", ") ++ v) :: rest
    | .gt => (k, w) :: hdrAppend rest n v

/-- Headers::remove for a case-insensitively equal key. -/
def hdrRemove : HeadersL → List Nat → HeadersL
  | [], _ => []
  | (k, w) :: rest, n =>
    match nameCmp n k with
    | .eq => rest
    | _ => (k, w) :: hdrRemove rest n

/-- Strict sortedness of the association list: the BTreeMap
representation invariant. -/
def hdrSortedB : HeadersL → Bool
  | [] => true
  | h :: t => t.all (fun h2 => decide (nameCmp h.1 h2.1 = .lt)) && hdrSortedB t

/-- RTSP protocol version (src/lib.rs). -/
inductive Version where
  | v1_0
  | v2_0
deriving DecidableEq

/-- RTSP method (src/message.rs); Extension holds the token bytes. -/
inductive Method where
  | describe
  | getParameter
  | options
  | pause
  | play
  | playNotify
  | redirect
  | setup
  | setParameter
  | announce
  | record
  | teardown
  | extension (s : List Nat)
deriving DecidableEq

/-- The canonical serialized spelling of a method
(From a Method reference for a str, src/message.rs). -/
def methodBytes : Method → List Nat
  | .describe => str ("DESCRIBE")
  | .getParameter => str ("GET_PARAMETER")
  | .options => str ("OPTIONS")
  | .pause => str ("PAUSE")
  | .play => str ("PLAY")
  | .playNotify => str ("PLAY_NOTIFY")
  | .redirect => str ("REDIRECT")
  | .setup => str ("SETUP")
  | .setParameter => str ("SET_PARAMETER")
  | .announce => str ("ANNOUNCE")
  | .record => str ("RECORD")
  | .teardown => str ("TEARDOWN")
  | .extension s => s

/-- Parsing a method from its token bytes
(From a str for MethodRef, src/message_ref.rs). -/
def methodFromBytes (v : List Nat) : Method :=
  if v = str ("DESCRIBE") then .describe
  else if v = str ("GET_PARAMETER") then .getParameter
  else if v = str ("OPTIONS") then .options
  else if v = str ("PAUSE") then .pause
  else if v = str ("PLAY") then .play
  else if v = str ("PLAY_NOTIFY") then .playNotify
  else if v = str ("REDIRECT") then .redirect
  else if v = str ("SETUP") then .setup
  else if v = str ("SET_PARAMETER") then .setParameter
  else if v = str ("ANNOUNCE") then .announce
  else if v = str ("RECORD") then .record
  else if v = str ("TEARDOWN") then .teardown
  else .extension v

/-- RTSP status codes (src/lib.rs), with the Extension catch-all. -/
inductive StatusCode where
  | contin
  | ok
  | movedPermanently
  | found
  | seeOther
  | notModified
  | useProxy
  | badRequest
  | unauthorized
  | paymentRequired
  | forbidden
  | notFound
  | methodNotAllowed
  | notAcceptable
  | proxyAuthenticationRequired
  | requestTimeout
  | gone
  | preconditionFailed
  | requestMessageBodyTooLarge
  | requestURITooLong
  | unsupportedMediaType
  | parameterNotUnderstood
  | reserved
  | notEnoughBandwidth
  | sessionNotFound
  | methodNotValidInThisState
  | headerFieldNotValidForResource
  | invalidRange
  | parameterIsReadOnly
  | aggregateOperationNotAllowed
  | onlyAggregateOperationAllowed
  | unsupportedTransport
  | destinationUnreachable
  | destinationProhibited
  | dataTransportNotReadyYet
  | notificationReasonUnknown
  | keyManagementError
  | connectionAuthorizationRequired
  | connectionCredentialsNotAccepted
  | failureToEstablishSecureConnection
  | internalServerError
  | notImplemented
  | badGateway
  | serviceUnavailable
  | gatewayTimeout
  | rtspVersionNotSupported
  | optionNotSupported
  | proxyUnavailable
  | extension (n : Nat)
deriving DecidableEq

/-- Conversion to the numeric value (From a StatusCode for u16,
src/lib.rs lines 347 to 401); note invalidRange maps to 456 there. -/
def statusToU16 : StatusCode → Nat
  | .contin => 100
  | .ok => 200
  | .movedPermanently => 301
  | .found => 302
  | .seeOther => 303
  | .notModified => 304
  | .useProxy => 305
  | .badRequest => 400
  | .unauthorized => 401
  | .paymentRequired => 402
  | .forbidden => 403
  | .notFound => 404
  | .methodNotAllowed => 405
  | .notAcceptable => 406
  | .proxyAuthenticationRequired => 407
  | .requestTimeout => 408
  | .gone => 410
  | .preconditionFailed => 412
  | .requestMessageBodyTooLarge => 413
  | .requestURITooLong => 414
  | .unsupportedMediaType => 415
  | .parameterNotUnderstood => 451
  | .reserved => 452
  | .notEnoughBandwidth => 453
  | .sessionNotFound => 454
  | .methodNotValidInThisState => 455
  | .headerFieldNotValidForResource => 456
  | .invalidRange => 456
  | .parameterIsReadOnly => 458
  | .aggregateOperationNotAllowed => 459
  | .onlyAggregateOperationAllowed => 460
  | .unsupportedTransport => 461
  | .destinationUnreachable => 462
  | .destinationProhibited => 463
  | .dataTransportNotReadyYet => 464
  | .notificationReasonUnknown => 465
  | .keyManagementError => 466
  | .connectionAuthorizationRequired => 470
  | .connectionCredentialsNotAccepted => 471
  | .failureToEstablishSecureConnection => 472
  | .internalServerError => 500
  | .notImplemented => 501
  | .badGateway => 502
  | .serviceUnavailable => 503
  | .gatewayTimeout => 504
  | .rtspVersionNotSupported => 505
  | .optionNotSupported => 551
  | .proxyUnavailable => 553
  | .extension n => n

/-- Conversion from the numeric value (From a u16 for StatusCode,
src/lib.rs lines 290 to 344); 457 maps to invalidRange there. -/
def statusFromU16 (v : Nat) : StatusCode :=
  if v = 100 then .contin
  else if v = 200 then .ok
  else if v = 301 then .movedPermanently
  else if v = 302 then .found
  else if v = 303 then .seeOther
  else if v = 304 then .notModified
  else if v = 305 then .useProxy
  else if v = 400 then .badRequest
  else if v = 401 then .unauthorized
  else if v = 402 then .paymentRequired
  else if v = 403 then .forbidden
  else if v = 404 then .notFound
  else if v = 405 then .methodNotAllowed
  else if v = 406 then .notAcceptable
  else if v = 407 then .proxyAuthenticationRequired
  else if v = 408 then .requestTimeout
  else if v = 410 then .gone
  else if v = 412 then .preconditionFailed
  else if v = 413 then .requestMessageBodyTooLarge
  else if v = 414 then .requestURITooLong
  else if v = 415 then .unsupportedMediaType
  else if v = 451 then .parameterNotUnderstood
  else if v = 452 then .reserved
  else if v = 453 then .notEnoughBandwidth
  else if v = 454 then .sessionNotFound
  else if v = 455 then .methodNotValidInThisState
  else if v = 456 then .headerFieldNotValidForResource
  else if v = 457 then .invalidRange
  else if v = 458 then .parameterIsReadOnly
  else if v = 459 then .aggregateOperationNotAllowed
  else if v = 460 then .onlyAggregateOperationAllowed
  else if v = 461 then .unsupportedTransport
  else if v = 462 then .destinationUnreachable
  else if v = 463 then .destinationProhibited
  else if v = 464 then .dataTransportNotReadyYet
  else if v = 465 then .notificationReasonUnknown
  else if v = 466 then .keyManagementError
  else if v = 470 then .connectionAuthorizationRequired
  else if v = 471 then .connectionCredentialsNotAccepted
  else if v = 472 then .failureToEstablishSecureConnection
  else if v = 500 then .internalServerError
  else if v = 501 then .notImplemented
  else if v = 502 then .badGateway
  else if v = 503 then .serviceUnavailable
  else if v = 504 then .gatewayTimeout
  else if v = 505 then .rtspVersionNotSupported
  else if v = 551 then .optionNotSupported
  else if v = 553 then .proxyUnavailable
  else .extension v

/-- The numeric values matched by a From arm of the u16 conversion. -/
def knownStatusNum (v : Nat) : Bool :=
  v == 100 || v == 200 || v == 301 || v == 302 || v == 303 || v == 304 || v == 305 ||
  v == 400 || v == 401 || v == 402 || v == 403 || v == 404 || v == 405 || v == 406 ||
  v == 407 || v == 408 || v == 410 || v == 412 || v == 413 || v == 414 || v == 415 ||
  v == 451 || v == 452 || v == 453 || v == 454 || v == 455 || v == 456 || v == 457 ||
  v == 458 || v == 459 || v == 460 || v == 461 || v == 462 || v == 463 || v == 464 ||
  v == 465 || v == 466 || v == 470 || v == 471 || v == 472 || v == 500 || v == 501 ||
  v == 502 || v == 503 || v == 504 || v == 505 || v == 551 || v == 553

/-- Display for StatusCode: the default reason phrase (src/lib.rs),
including the ALlowed typo of the source. -/
def statusDisplay : StatusCode → List Nat
  | .contin => str ("Continue")
  | .ok => str ("Ok")
  | .movedPermanently => str ("Moved Permanently")
  | .found => str ("Found")
  | .seeOther => str ("See Other")
  | .notModified => str ("Not Modified")
  | .useProxy => str ("Use Proxy")
  | .badRequest => str ("Bad Request")
  | .unauthorized => str ("Unauthorized")
  | .paymentRequired => str ("Payment Required")
  | .forbidden => str ("Forbidden")
  | .notFound => str ("Not Found")
  | .methodNotAllowed => str ("Method Not Allowed")
  | .notAcceptable => str ("Not Acceptable")
  | .proxyAuthenticationRequired => str ("Proxy Authentication Required")
  | .requestTimeout => str ("Request Timeout")
  | .gone => str ("Gone")
  | .preconditionFailed => str ("Precondition Failed")
  | .requestMessageBodyTooLarge => str ("Request Message Body Too Large")
  | .requestURITooLong => str ("Request URI Too Long")
  | .unsupportedMediaType => str ("Unsupported Media Type")
  | .parameterNotUnderstood => str ("Parameter Not Understood")
  | .reserved => str ("Reserved")
  | .notEnoughBandwidth => str ("Not Enough Bandwidth")
  | .sessionNotFound => str ("Session Not Found")
  | .methodNotValidInThisState => str ("Method Not Valid In This State")
  | .headerFieldNotValidForResource => str ("Header Field Not Valid For Resource")
  | .invalidRange => str ("Invalid Range")
  | .parameterIsReadOnly => str ("Parameter Is Read-Only")
  | .aggregateOperationNotAllowed => str ("Aggregate Operation Not Allowed")
  | .onlyAggregateOperationAllowed => str ("Only Aggregate Operation ALlowed")
  | .unsupportedTransport => str ("Unsupported Transport")
  | .destinationUnreachable => str ("Destination Unreachable")
  | .destinationProhibited => str ("Destination Prohibited")
  | .dataTransportNotReadyYet => str ("Data Transport Not Ready Yet")
  | .notificationReasonUnknown => str ("Notification Reason Unknown")
  | .keyManagementError => str ("Key Management Error")
  | .connectionAuthorizationRequired => str ("Connection Authorization Required")
  | .connectionCredentialsNotAccepted => str ("Connection Credentials Not Accepted")
  | .failureToEstablishSecureConnection => str ("Failure To Establish Secure Connection")
  | .internalServerError => str ("Internal Server Error")
  | .notImplemented => str ("Not Implemented")
  | .badGateway => str ("Bad Gateway")
  | .serviceUnavailable => str ("Service Unavailable")
  | .gatewayTimeout => str ("Gateway Timeout")
  | .rtspVersionNotSupported => str ("RTSP Version Not Supported")
  | .optionNotSupported => str ("Option Not Supported")
  | .proxyUnavailable => str ("Proxy Unavailable")
  | .extension n => str ("Extension ") ++ decimalBytes n

/-- Owned request (Request over a byte body, src/message.rs).  The
request URI is the string form of the Url; the external url crate is
modelled by that string. -/
structure RequestO where
  method : Method
  requestUri : Option (List Nat)
  version : Version
  headers : HeadersL
  body : List Nat
deriving DecidableEq

/-- Owned response (Response over a byte body, src/message.rs). -/
structure ResponseO where
  version : Version
  status : StatusCode
  reasonPhrase : List Nat
  headers : HeadersL
  body : List Nat
deriving DecidableEq

/-- Owned data message (Data over a byte body, src/message.rs). -/
structure DataO where
  channelId : Nat
  body : List Nat
deriving DecidableEq

/-- Owned Message enum (src/message.rs). -/
inductive Msg where
  | request (r : RequestO)
  | response (r : ResponseO)
  | data (d : DataO)
deriving DecidableEq

/-- CRLF bytes. -/
def crlfBytes : List Nat := [13, 10]

/-- Serialized version token (rtsp_version in src/serializer.rs). -/
def versionBytes : Version → List Nat
  | .v1_0 => str ("RTSP/1.0")
  | .v2_0 => str ("RTSP/2.0")

/-- Serialized header block: every header as name, colon space, value,
CRLF, in map order (headers in src/serializer.rs). -/
def serHeaders : HeadersL → List Nat
  | [] => []
  | (n, v) :: rest => n ++ str (": ") ++ v ++ crlfBytes ++ serHeaders rest

/-- Serialized request line (request_line in src/serializer.rs);
a missing request URI is written as the asterisk. -/
def serRequestLine (m : Method) (uri : Option (List Nat)) (v : Version) : List Nat :=
  methodBytes m ++ [32] ++ (match uri with | some u => u | none => [42]) ++ [32] ++
    versionBytes v ++ crlfBytes

/-- Serialized status line (status_line in src/serializer.rs): the
status code is written as its decimal numeric value. -/
def serStatusLine (v : Version) (s : StatusCode) (reason : List Nat) : List Nat :=
  versionBytes v ++ [32] ++ decimalBytes (statusToU16 s) ++ [32] ++ reason ++ crlfBytes

/-- Serialized request (request in src/serializer.rs). -/
def serRequest (r : RequestO) : List Nat :=
  serRequestLine r.method r.requestUri r.version ++ serHeaders r.headers ++ crlfBytes ++ r.body

/-- Serialized response (response in src/serializer.rs). -/
def serResponse (r : ResponseO) : List Nat :=
  serStatusLine r.version r.status r.reasonPhrase ++ serHeaders r.headers ++ crlfBytes ++ r.body

/-- Serialized data frame (data in src/serializer.rs): dollar byte,
channel id byte, the body length cast to u16 in big-endian, body. -/
def serData (d : DataO) : List Nat :=
  [36, d.channelId, d.body.length % 65536 / 256, d.body.length % 65536 % 256] ++ d.body

/-- Message::write output bytes. -/
def Msg.writeBytes : Msg → List Nat
  | .request r => serRequest r
  | .response r => serResponse r
  | .data d => serData d

/-- Message::write_len: the byte count of the serialization (the source
serializes into a counting sink). -/
def Msg.writeLen (m : Msg) : Nat := m.writeBytes.length

/-- Canonical Content-Length header name (src/headers/constants.rs). -/
def contentLengthName : List Nat := str ("Content-Length")

/-- Canonical CSeq header name (src/headers/constants.rs). -/
def cseqName : List Nat := str ("CSeq")

/-- RequestBuilder state: a Request with the Empty body
(src/message.rs lines 518 to 586). -/
structure RequestBuilderS where
  method : Method
  requestUri : Option (List Nat)
  version : Version
  headers : HeadersL

/-- Request::builder. -/
def RequestBuilderS.new (m : Method) (v : Version) : RequestBuilderS :=
  ⟨m, none, v, []⟩

/-- RequestBuilder::request_uri. -/
def RequestBuilderS.uri (b : RequestBuilderS) (u : List Nat) : RequestBuilderS :=
  { b with requestUri := some u }

/-- RequestBuilder::header: appends to the header map. -/
def RequestBuilderS.header (b : RequestBuilderS) (n v : List Nat) : RequestBuilderS :=
  { b with headers := hdrAppend b.headers n v }

/-- RequestBuilder::build: inserts Content-Length with the body length
if the body is not empty; an empty body leaves the headers untouched. -/
def RequestBuilderS.build (b : RequestBuilderS) (body : List Nat) : RequestO :=
  let hs := if body = [] then b.headers
            else hdrInsert b.headers contentLengthName (decimalBytes body.length)
  ⟨b.method, b.requestUri, b.version, hs, body⟩

/-- RequestBuilder::empty: the accumulated request with an empty body. -/
def RequestBuilderS.emptyBody (b : RequestBuilderS) : RequestO :=
  ⟨b.method, b.requestUri, b.version, b.headers, []⟩

/-- ResponseBuilder state: a Response with the Empty body plus the
optional explicit reason phrase (src/message.rs lines 865 to 946). -/
structure ResponseBuilderS where
  version : Version
  status : StatusCode
  headers : HeadersL
  reason : Option (List Nat)

/-- Response::builder. -/
def ResponseBuilderS.new (v : Version) (s : StatusCode) : ResponseBuilderS :=
  ⟨v, s, [], none⟩

/-- ResponseBuilder::reason_phrase. -/
def ResponseBuilderS.reasonPhrase (b : ResponseBuilderS) (r : List Nat) : ResponseBuilderS :=
  { b with reason := some r }

/-- ResponseBuilder::header: appends to the header map. -/
def ResponseBuilderS.header (b : ResponseBuilderS) (n v : List Nat) : ResponseBuilderS :=
  { b with headers := hdrAppend b.headers n v }

/-- ResponseBuilder::build: inserts Content-Length for a non-empty body
and defaults the reason phrase to the status display string. -/
def ResponseBuilderS.build (b : ResponseBuilderS) (body : List Nat) : ResponseO :=
  let hs := if body = [] then b.headers
            else hdrInsert b.headers contentLengthName (decimalBytes body.length)
  ⟨b.version, b.status, (match b.reason with | some r => r | none => statusDisplay b.status),
    hs, body⟩

/-- ResponseBuilder::empty. -/
def ResponseBuilderS.emptyBody (b : ResponseBuilderS) : ResponseO :=
  ⟨b.version, b.status, (match b.reason with | some r => r | none => statusDisplay b.status),
    b.headers, []⟩

/-- Result of a nom streaming parser: remaining input and value, or
Incomplete, or a recoverable Error, or an unrecoverable Failure. -/
inductive PResult (α : Type) : Type where
  | ok (rest : List Nat) (val : α)
  | incomplete
  | error
  | failure
deriving DecidableEq

/-- A parser over byte input. -/
abbrev ParserM (α : Type) : Type := List Nat → PResult α

/-- Parser returning a value without consuming input. -/
def pPure {α : Type} (a : α) : ParserM α := fun i => .ok i a

/-- Sequencing of nom parsers: Incomplete, Error and Failure propagate. -/
def pbind {α β : Type} (p : ParserM α) (f : α → ParserM β) : ParserM β := fun i =>
  match p i with
  | .ok r v => f v r
  | .incomplete => .incomplete
  | .error => .error
  | .failure => .failure

/-- nom map combinator. -/
def pmap {α β : Type} (p : ParserM α) (f : α → β) : ParserM β :=
  pbind p (fun v => pPure (f v))

/-- nom alt: a recoverable Error tries the next branch; Incomplete and
Failure propagate immediately. -/
def palt {α : Type} (p q : ParserM α) : ParserM α := fun i =>
  match p i with
  | .error => q i
  | r => r

/-- nom opt: an Error yields none without consuming input. -/
def popt {α : Type} (p : ParserM α) : ParserM (Option α) := fun i =>
  match p i with
  | .ok r v => .ok r (some v)
  | .error => .ok i none
  | .incomplete => .incomplete
  | .failure => .failure

/-- nom map_res: a failing conversion is a recoverable Error. -/
def pMapRes {α β : Type} (p : ParserM α) (f : α → Option β) : ParserM β := fun i =>
  match p i with
  | .ok r v =>
    match f v with
    | some w => .ok r w
    | none => .error
  | .incomplete => .incomplete
  | .error => .error
  | .failure => .failure

/-- nom streaming tag: Incomplete when the input is a proper prefix of
the tag, Error on a mismatch. -/
def pTag (t : List Nat) : ParserM Unit := fun i =>
  if i.length < t.length then
    if i = t.take i.length then .incomplete else .error
  else if i.take t.length = t then .ok (i.drop t.length) () else .error

/-- nom streaming char (by byte). -/
def pChar (c : Nat) : ParserM Unit := fun i =>
  match i with
  | [] => .incomplete
  | b :: rest => if b = c then .ok rest () else .error

/-- nom streaming one_of (by byte), returning the matched byte. -/
def pOneOf (cs : List Nat) : ParserM Nat := fun i =>
  match i with
  | [] => .incomplete
  | b :: rest => if b ∈ cs then .ok rest b else .error

/-- nom streaming take_while: Incomplete when every byte up to the end
of input matches. -/
def pTakeWhile (f : Nat → Bool) : ParserM (List Nat)
  | [] => .incomplete
  | b :: rest =>
    if f b then
      match pTakeWhile f rest with
      | .ok r v => .ok r (b :: v)
      | e => e
    else .ok (b :: rest) []

/-- nom streaming take. -/
def pTake (n : Nat) : ParserM (List Nat) := fun i =>
  if i.length < n then .incomplete else .ok (i.drop n) (i.take n)

/-- nom streaming be_u16: two bytes, big endian. -/
def pBeU16 : ParserM Nat := fun i =>
  match i with
  | b0 :: b1 :: rest => .ok rest (b0 * 256 + b1)
  | _ => .incomplete

/-- nom streaming take_until for the CRLF tag: the output stops before
the first CRLF, which is not consumed; Incomplete when no CRLF occurs. -/
def pTakeUntilCrlf : ParserM (List Nat)
  | [] => .incomplete
  | b :: rest =>
    if b = 13 ∧ rest.head? = some 10 then .ok (b :: rest) []
    else
      match pTakeUntilCrlf rest with
      | .ok r v => .ok r (b :: v)
      | e => e

/-- nom streaming take_while_m_n with m and n both 3 for digits, as in
the status line: Error when a non-digit occurs among the first three
bytes, Incomplete when the input ends before three digits. -/
def pDigits3 : ParserM (List Nat) := fun i =>
  match i with
  | b0 :: b1 :: b2 :: rest =>
    if isDigitB b0 && isDigitB b1 && isDigitB b2 then .ok rest [b0, b1, b2] else .error
  | _ => if i.all isDigitB then .incomplete else .error

/-- nom fold_many0 shape: loop while the inner parser succeeds; an Error
stops the loop, Incomplete and Failure propagate, and a success that
consumes nothing is an Error (the nom infinite-loop guard; the guard
compares slices, which for our parsers is the length check below). -/
def pmany0 {α : Type} (p : ParserM α) (i : List Nat) : PResult (List α) :=
  match p i with
  | .error => .ok i []
  | .incomplete => .incomplete
  | .failure => .failure
  | .ok r v =>
    if h : r.length < i.length then
      match pmany0 p r with
      | .ok r2 vs => .ok r2 (v :: vs)
      | e => e
    else .error
termination_by i.length

/-- The scanning loop of header_value in src/parser.rs, returning the
raw value and the remaining input (starting at the terminating CRLF),
or none for Incomplete.  The source skips a whole run of SP and HTAB
after a continuation CRLF in one step; since SP and HTAB never begin a
CRLF pair, consuming that run byte by byte (the recursion below) keeps
the same result, and lets the recursion be structural. -/
def hvAux : List Nat → Option (List Nat × List Nat)
  | [] => none
  | b :: rest =>
    if b = 13 ∧ rest.head? = some 10 then
      match rest with
      | b2 :: rest2 =>
        match rest2 with
        | c :: _ =>
          if c = 32 ∨ c = 9 then
            match hvAux rest2 with
            | some (v, r) => some (b :: b2 :: v, r)
            | none => none
          else some ([], b :: rest)
        | [] => some ([], b :: rest)
      | [] => none
    else
      match hvAux rest with
      | some (v, r) => some (b :: v, r)
      | none => none

/-- header_value as a parser. -/
def headerValueP : ParserM (List Nat) := fun i =>
  match hvAux i with
  | some (v, r) => .ok r v
  | none => .incomplete

/-- str::from_utf8 as an Option conversion on byte lists. -/
def utf8Guard (l : List Nat) : Option (List Nat) :=
  if utf8Valid l then some l else none

/-- token (src/parser.rs). -/
def token : ParserM (List Nat) := pTakeWhile isTokenChar

/-- sp (src/parser.rs): one space. -/
def spP : ParserM Unit := pChar 32

/-- crlf (src/parser.rs). -/
def crlfP : ParserM Unit := pTag crlfBytes

/-- vchar_1 (src/parser.rs). -/
def vchar1 : ParserM (List Nat) := pTakeWhile isVcharB

/-- rtsp_version (src/parser.rs): only 1.0 and 2.0 are accepted. -/
def rtspVersionP : ParserM Version :=
  pbind (pTag (str ("RTSP/"))) fun _ =>
  pbind (pOneOf [49, 50]) fun major =>
  pbind (pTag (str (".0"))) fun _ =>
  pPure (if major = 50 then Version.v2_0 else Version.v1_0)

/-- Parsed request line fields. -/
structure RequestLineR where
  method : Method
  requestUri : Option (List Nat)
  version : Version
deriving DecidableEq

/-- request_line (src/parser.rs): method token, space, either the
asterisk (no URI) or a VCHAR run, space, version, CRLF. -/
def requestLineP : ParserM RequestLineR :=
  pbind (pmap (pMapRes token utf8Guard) methodFromBytes) fun m =>
  pbind spP fun _ =>
  pbind (palt (pmap (pChar 42) (fun _ => (none : Option (List Nat))))
              (pmap (pMapRes vchar1 utf8Guard) some)) fun uri =>
  pbind spP fun _ =>
  pbind rtspVersionP fun ver =>
  pbind crlfP fun _ =>
  pPure ⟨m, uri, ver⟩

/-- Parsed status line fields. -/
structure StatusLineR where
  version : Version
  status : StatusCode
  reasonPhrase : List Nat
deriving DecidableEq

/-- status_line (src/parser.rs): version, space, exactly three digits
parsed as a u16 and converted to a StatusCode, space, the reason
phrase up to the terminating CRLF, CRLF. -/
def statusLineP : ParserM StatusLineR :=
  pbind rtspVersionP fun ver =>
  pbind spP fun _ =>
  pbind (pMapRes (pMapRes pDigits3 utf8Guard) (parseUnsigned (2 ^ 16))) fun code =>
  pbind spP fun _ =>
  pbind (pMapRes pTakeUntilCrlf utf8Guard) fun reason =>
  pbind crlfP fun _ =>
  pPure ⟨ver, statusFromU16 code, reason⟩

/-- message_header (src/parser.rs): token name, colon, optional run of
spaces and tabs, raw value, CRLF. -/
def messageHeaderP : ParserM HeaderR :=
  pbind (pMapRes token utf8Guard) fun name =>
  pbind (pChar 58) fun _ =>
  pbind (popt (pTakeWhile isSpaceB)) fun _ =>
  pbind (pMapRes headerValueP utf8Guard) fun value =>
  pbind crlfP fun _ =>
  pPure (name, value)

/-- headers (src/parser.rs): header lines terminated by an empty CRLF. -/
def headersBlockP : ParserM (List HeaderR) :=
  pbind (fun i => pmany0 messageHeaderP i) fun hs =>
  pbind crlfP fun _ =>
  pPure hs

/-- content_length (src/parser.rs): the first header whose uppercased
name is CONTENT-LENGTH; returns none when absent. -/
def findContentLength : List HeaderR → Option (List Nat)
  | [] => none
  | (n, v) :: rest =>
    if n.map upCase = str ("CONTENT-LENGTH") then some v else findContentLength rest

/-- The content-length step inside request and response parsing: the
value is parsed as a usize (64 bits); a parse failure is the
unrecoverable nom Failure; an absent header means zero. -/
def contentLengthP (hs : List HeaderR) : ParserM Nat := fun i =>
  match findContentLength hs with
  | none => .ok i 0
  | some v =>
    match parseUnsigned (2 ^ 64) v with
    | some n => .ok i n
    | none => .failure

/-- Parsed borrowed request (RequestRef). -/
structure RequestR where
  method : Method
  requestUri : Option (List Nat)
  version : Version
  headers : List HeaderR
  body : List Nat
deriving DecidableEq

/-- Parsed borrowed response (ResponseRef). -/
structure ResponseR where
  version : Version
  status : StatusCode
  reasonPhrase : List Nat
  headers : List HeaderR
  body : List Nat
deriving DecidableEq

/-- Parsed borrowed data frame (DataRef). -/
structure DataR where
  channelId : Nat
  body : List Nat
deriving DecidableEq

/-- request (src/parser.rs). -/
def requestP : ParserM RequestR :=
  pbind requestLineP fun rl =>
  pbind headersBlockP fun hs =>
  pbind (contentLengthP hs) fun n =>
  pbind (pTake n) fun body =>
  pPure ⟨rl.method, rl.requestUri, rl.version, hs, body⟩

/-- response (src/parser.rs). -/
def responseP : ParserM ResponseR :=
  pbind statusLineP fun sl =>
  pbind headersBlockP fun hs =>
  pbind (contentLengthP hs) fun n =>
  pbind (pTake n) fun body =>
  pPure ⟨sl.version, sl.status, sl.reasonPhrase, hs, body⟩

/-- data (src/parser.rs): dollar, one channel byte, big-endian u16
length, that many body bytes. -/
def dataP : ParserM DataR :=
  pbind (pChar 36) fun _ =>
  pbind (pTake 1) fun ch =>
  pbind (pbind pBeU16 fun n => pTake n) fun body =>
  pPure ⟨ch.headD 0, body⟩

/-- Parsed borrowed message (MessageRef). -/
inductive MsgR where
  | request (r : RequestR)
  | response (r : ResponseR)
  | data (d : DataR)
deriving DecidableEq

/-- message (src/parser.rs): skip any CRLF run, then try data, request
and response in that order. -/
def messageP : ParserM MsgR :=
  pbind (fun i => pmany0 crlfP i) fun _ =>
  palt (pmap dataP MsgR.data)
    (palt (pmap requestP MsgR.request) (pmap responseP MsgR.response))

/-- The value-collapsing loop of Headers::from_headers_ref
(src/headers/types.rs lines 30 to 53): a CRLF followed by a run of SP
and HTAB becomes one space; a CRLF and trailing whitespace at the end
of the value are dropped.  The skip flag is true while inside such a
whitespace run; the source skips the whole run in one step, which this
byte-by-byte structural recursion reproduces. -/
def collapseAux : Bool → List Nat → List Nat
  | _, [] => []
  | skip, b :: rest =>
    if skip then
      if isSpaceB b then collapseAux true rest
      else if b = 13 ∧ rest.head? = some 10 then
        32 :: (match rest with | _ :: rest2 => collapseAux true rest2 | [] => [])
      else 32 :: b :: collapseAux false rest
    else
      if b = 13 ∧ rest.head? = some 10 then
        match rest with | _ :: rest2 => collapseAux true rest2 | [] => []
      else b :: collapseAux false rest

/-- Multi-line header value collapsing on an owned value. -/
def collapseValue (v : List Nat) : List Nat := collapseAux false v

/-- Headers::from_headers_ref: append every parsed header (with its
collapsed value) into a fresh map. -/
def fromHeadersRef (hs : List HeaderR) : HeadersL :=
  hs.foldl (fun acc h => hdrAppend acc h.1 (collapseValue h.2)) []

/-- Url::parse of the url crate, modelled on the string form of a Url:
for every string that a Url serializes to, parsing returns that Url
back, which the identity embedding captures.  The crate is external to
this repository. -/
def urlParse (u : List Nat) : Option (List Nat) := some u

/-- MessageRef::to_owned and the Ref to_owned functions
(src/message_ref.rs): requests re-parse the URI as a Url; headers are
folded into the owned map. -/
def MsgR.toOwned : MsgR → Option Msg
  | .request r =>
    match r.requestUri with
    | some u =>
      match urlParse u with
      | some u2 =>
        some (.request ⟨r.method, some u2, r.version, fromHeadersRef r.headers, r.body⟩)
      | none => none
    | none => some (.request ⟨r.method, none, r.version, fromHeadersRef r.headers, r.body⟩)
  | .response r =>
    some (.response ⟨r.version, r.status, r.reasonPhrase, fromHeadersRef r.headers, r.body⟩)
  | .data d => some (.data ⟨d.channelId, d.body⟩)

/-- Outcome of Message::parse. -/
inductive ParseOutcome where
  | ok (m : Msg) (consumed : Nat)
  | incomplete
  | error
deriving DecidableEq

/-- Message::parse (src/message.rs together with MessageRef::parse in
src/message_ref.rs): run the wire parser, convert to the owned form,
and report the number of consumed bytes; a failed to_owned is the
fatal ParseError. -/
def Msg.parse (buf : List Nat) : ParseOutcome :=
  match messageP buf with
  | .ok rem m =>
    match m.toOwned with
    | some msg => .ok msg (buf.length - rem.length)
    | none => .error
  | .incomplete => .incomplete
  | .error => .error
  | .failure => .error

/-- Whether a byte list contains a CRLF pair. -/
def containsCRLF : List Nat → Bool
  | [] => false
  | b :: rest => if b = 13 ∧ rest.head? = some 10 then true else containsCRLF rest

/-- Wire safety of a header name: a nonempty RTSP token. -/
def headerNameWfB (n : List Nat) : Bool := (!(n == [])) && n.all isTokenChar

/-- Wire safety of a header value: valid UTF-8 (a Rust String), no
embedded CRLF, not beginning with space or tab. -/
def headerValueWfB (v : List Nat) : Bool :=
  (!containsCRLF v) && utf8Valid v &&
  (match v.head? with | some b => !isSpaceB b | none => true)

/-- Wire safety of one header entry. -/
def headerWfB (h : HeaderR) : Bool := headerNameWfB h.1 && headerValueWfB h.2

/-- Wire safety of a header map: sorted (the BTreeMap invariant) with
wire-safe entries. -/
def headersWfB (hs : HeadersL) : Bool := hdrSortedB hs && hs.all headerWfB

/-- Consistency of the stored Content-Length with the body: absent for
an empty body, otherwise parsing to exactly the body length. -/
def clConsistentB (hs : HeadersL) (body : List Nat) : Bool :=
  match findContentLength hs with
  | none => body == []
  | some v => parseUnsigned (2 ^ 64) v == some body.length

/-- Wire safety of a method: for Extension, a nonempty token, not
beginning with the dollar byte (which would parse as a data frame) and
distinct from every canonical method spelling. -/
def methodWfB : Method → Bool
  | .extension s =>
    (!(s == [])) && s.all isTokenChar && (!(s.head? == some 36)) &&
    (!(s == str ("DESCRIBE"))) && (!(s == str ("GET_PARAMETER"))) &&
    (!(s == str ("OPTIONS"))) && (!(s == str ("PAUSE"))) && (!(s == str ("PLAY"))) &&
    (!(s == str ("PLAY_NOTIFY"))) && (!(s == str ("REDIRECT"))) && (!(s == str ("SETUP"))) &&
    (!(s == str ("SET_PARAMETER"))) && (!(s == str ("ANNOUNCE"))) &&
    (!(s == str ("RECORD"))) && (!(s == str ("TEARDOWN")))
  | _ => true

/-- Wire safety of a request URI: the string form of a Url is nonempty
printable ASCII and never begins with an asterisk. -/
def uriWfB : Option (List Nat) → Bool
  | none => true
  | some u => (!(u == [])) && u.all isVcharB && (!(u.head? == some 42))

/-- Wire safety of an owned request. -/
def requestWfB (r : RequestO) : Bool :=
  methodWfB r.method && uriWfB r.requestUri && headersWfB r.headers &&
  clConsistentB r.headers r.body

/-- Wire safety of an owned response: the status serializes to three
digits and survives the numeric round trip; the reason phrase is a
CRLF-free String. -/
def responseWfB (r : ResponseO) : Bool :=
  decide (100 ≤ statusToU16 r.status) && decide (statusToU16 r.status ≤ 999) &&
  (statusFromU16 (statusToU16 r.status) == r.status) &&
  (!containsCRLF r.reasonPhrase) && utf8Valid r.reasonPhrase &&
  headersWfB r.headers && clConsistentB r.headers r.body

/-- Wire safety of a data message: the channel id is a byte and the
body length fits the u16 length field. -/
def dataWfB (d : DataO) : Bool :=
  decide (d.channelId < 256) && decide (d.body.length < 65536)

/-- Wire safety of an owned message. -/
def msgWfB : Msg → Bool
  | .request r => requestWfB r
  | .response r => responseWfB r
  | .data d => dataWfB d

/-- Result of a typed header from_headers call: ok with an optional
value, or the HeaderParseError. -/
inductive HdrParseResult where
  | ok (v : Option Nat)
  | err
deriving DecidableEq

/-- CSeq::from_headers (src/headers/cseq.rs): absent header is ok none;
otherwise the value is parsed as a u128 (the CSeq wrapper holds a u128),
and a failed parse is the HeaderParseError. -/
def cseqFromHeaders (hs : HeadersL) : HdrParseResult :=
  match hdrGet hs cseqName with
  | none => .ok none
  | some v =>
    match parseUnsigned (2 ^ 128) v with
    | some n => .ok (some n)
    | none => .err

/-- A message constructible via the builders that defeats the universal
round trip: a request with an explicitly set Content-Length header and
an empty body (neither build with an empty body nor empty removes the
stale header). -/
def c1CounterMsg : Msg :=
  .request (RequestBuilderS.emptyBody
    ((RequestBuilderS.new .options .v2_0).header contentLengthName (str ("5"))))

/-- The SET_PARAMETER example message of the crate documentation, used
as a concrete wire-safe message. -/
def c1WitnessMsg : Msg :=
  .request ⟨.setParameter, some (str ("rtsp://example.com/test")), .v2_0,
    [(contentLengthName, str ("18")), (str ("Content-Type"), str ("text/parameters")),
     (str ("CSeq"), str ("2"))],
    str ("barparam: barstuff")⟩

theorem tokenChar_facts (b : Nat) (h : isTokenChar b = true) :
    b ≤ 127 ∧ b ≠ 13 ∧ b ≠ 10 ∧ b ≠ 32 ∧ b ≠ 9 ∧ b ≠ 58 ∧ b ≠ 47 := by
  simp [isTokenChar] at h
  omega

theorem vchar_facts (b : Nat) (h : isVcharB b = true) :
    b ≤ 127 ∧ b ≠ 13 ∧ b ≠ 32 ∧ b ≠ 9 := by
  simp [isVcharB] at h
  omega

theorem utf8Valid_ascii (l : List Nat) (h : ∀ b ∈ l, b ≤ 127) : utf8Valid l = true := by
  induction l with
  | nil => rfl
  | cons b rest ih =>
    show utf8Auto 0 0 0 (b :: rest) = true
    rw [utf8Auto, if_pos (h b (List.mem_cons_self b rest))]
    exact ih (fun x hx => h x (List.mem_cons_of_mem b hx))

theorem utf8Guard_of_ascii (l : List Nat) (h : ∀ b ∈ l, b ≤ 127) :
    utf8Guard l = some l := by
  simp [utf8Guard, utf8Valid_ascii l h]

theorem pTakeWhile_append (f : Nat → Bool) (l : List Nat) (b : Nat) (rs : List Nat)
    (hl : ∀ x ∈ l, f x = true) (hb : f b = false) :
    pTakeWhile f (l ++ b :: rs) = .ok (b :: rs) l := by
  induction l with
  | nil => simp [pTakeWhile, hb]
  | cons x xs ih =>
    have hx := hl x (List.mem_cons_self x xs)
    show pTakeWhile f (x :: (xs ++ b :: rs)) = _
    unfold pTakeWhile
    rw [if_pos hx, ih (fun y hy => hl y (List.mem_cons_of_mem x hy))]

theorem pTag_append (t r : List Nat) : pTag t (t ++ r) = .ok r () := by
  unfold pTag
  rw [if_neg (by simp), if_pos (by simp [List.take_left]), List.drop_left]

theorem pTag_cons_ne (t0 : Nat) (ts : List Nat) (b : Nat) (rs : List Nat) (h : b ≠ t0) :
    pTag (t0 :: ts) (b :: rs) = .error := by
  unfold pTag
  split
  · rw [if_neg]
    simp only [List.length_cons, List.take_succ_cons, List.cons.injEq, not_and]
    intro hb
    exact absurd hb h
  · rw [if_neg]
    simp only [List.length_cons, List.take_succ_cons, List.cons.injEq, not_and]
    intro hb
    exact absurd hb h

theorem pChar_cons_eq (c : Nat) (r : List Nat) : pChar c (c :: r) = .ok r () := by
  simp [pChar]

theorem pChar_cons_ne (c b : Nat) (r : List Nat) (h : b ≠ c) : pChar c (b :: r) = .error := by
  simp [pChar, h]

theorem containsCRLF_cons_destruct (b : Nat) (rest : List Nat)
    (h : containsCRLF (b :: rest) = false) :
    ¬(b = 13 ∧ rest.head? = some 10) ∧ containsCRLF rest = false := by
  by_cases hc : b = 13 ∧ rest.head? = some 10
  · simp [containsCRLF, hc] at h
  · refine ⟨hc, ?_⟩
    unfold containsCRLF at h
    rwa [if_neg hc] at h

theorem crlf_boundary_cond (b : Nat) (rest r : List Nat)
    (hc : ¬(b = 13 ∧ rest.head? = some 10)) :
    ¬(b = 13 ∧ (rest ++ 13 :: 10 :: r).head? = some 10) := by
  rintro ⟨hb, hh⟩
  cases rest with
  | nil => simp at hh
  | cons y ys =>
    simp at hh
    exact hc ⟨hb, by simp [hh]⟩

theorem pTakeUntilCrlf_append (v r : List Nat) (hv : containsCRLF v = false) :
    pTakeUntilCrlf (v ++ 13 :: 10 :: r) = .ok (13 :: 10 :: r) v := by
  induction v with
  | nil => simp [pTakeUntilCrlf]
  | cons b rest ih =>
    obtain ⟨hc, hv'⟩ := containsCRLF_cons_destruct b rest hv
    show pTakeUntilCrlf (b :: (rest ++ 13 :: 10 :: r)) = _
    unfold pTakeUntilCrlf
    rw [if_neg (crlf_boundary_cond b rest r hc), ih hv']

theorem hvAux_ser (v r : List Nat) (hv : containsCRLF v = false)
    (hr : ∀ b, r.head? = some b → isSpaceB b = false) :
    hvAux (v ++ 13 :: 10 :: r) = some (v, 13 :: 10 :: r) := by
  induction v with
  | nil =>
    show hvAux (13 :: 10 :: r) = _
    cases r with
    | nil => rfl
    | cons c rs =>
      have hcs := hr c (by simp)
      simp only [isSpaceB, Bool.or_eq_true, beq_iff_eq, Bool.not_eq_true] at hcs
      have hnc : ¬(c = 32 ∨ c = 9) := by
        simp at hcs
        omega
      simp [hvAux, hnc]
  | cons b rest ih =>
    obtain ⟨hc, hv'⟩ := containsCRLF_cons_destruct b rest hv
    show hvAux (b :: (rest ++ 13 :: 10 :: r)) = _
    unfold hvAux
    rw [if_neg (crlf_boundary_cond b rest r hc), ih hv']

theorem collapseAux_id (v : List Nat) (hv : containsCRLF v = false) :
    collapseAux false v = v := by
  induction v with
  | nil => rfl
  | cons b rest ih =>
    obtain ⟨hc, hv'⟩ := containsCRLF_cons_destruct b rest hv
    unfold collapseAux
    simp only [Bool.false_eq_true, if_false]
    rw [if_neg hc, ih hv']

theorem byteCmp_self (x : Nat) : byteCmp x x = .eq := by
  simp [byteCmp]

theorem byteCmp_lt_iff (x y : Nat) : byteCmp x y = .lt ↔ x < y := by
  unfold byteCmp
  split
  · simp [*]
  · split <;> simp <;> omega

theorem byteCmp_gt_iff (x y : Nat) : byteCmp x y = .gt ↔ y < x := by
  unfold byteCmp
  split
  · simp
    omega
  · split <;> simp <;> omega

theorem byteCmp_eq_iff (x y : Nat) : byteCmp x y = .eq ↔ x = y := by
  unfold byteCmp
  split
  · simp
    omega
  · split <;> simp <;> omega

theorem nameCmp_self (n : List Nat) : nameCmp n n = .eq := by
  induction n with
  | nil => rfl
  | cons b t ih => simp [nameCmp, byteCmp_self, ih]

theorem nameCmp_lt_trans (a : List Nat) :
    ∀ (b c : List Nat), nameCmp a b = .lt → nameCmp b c = .lt → nameCmp a c = .lt := by
  induction a with
  | nil =>
    intro b c hab hbc
    cases b with
    | nil => simp [nameCmp] at hab
    | cons y ys =>
      cases c with
      | nil => simp [nameCmp] at hbc
      | cons z zs => simp [nameCmp]
  | cons x xs ih =>
    intro b c hab hbc
    cases b with
    | nil => simp [nameCmp] at hab
    | cons y ys =>
      cases c with
      | nil => simp [nameCmp] at hbc
      | cons z zs =>
        simp only [nameCmp] at hab hbc ⊢
        rcases hxy : byteCmp (foldCase x) (foldCase y) with _ | _ | _ <;>
          rw [hxy] at hab <;>
          rcases hyz : byteCmp (foldCase y) (foldCase z) with _ | _ | _ <;>
          rw [hyz] at hbc <;>
          simp only [] at hab hbc
        · rw [byteCmp_lt_iff] at hxy hyz
          rw [show byteCmp (foldCase x) (foldCase z) = .lt from (byteCmp_lt_iff _ _).2 (by omega)]
        · rw [byteCmp_lt_iff] at hxy
          rw [byteCmp_eq_iff] at hyz
          rw [show byteCmp (foldCase x) (foldCase z) = .lt from (byteCmp_lt_iff _ _).2 (by omega)]
        · simp at hbc
        · rw [byteCmp_eq_iff] at hxy
          rw [byteCmp_lt_iff] at hyz
          rw [show byteCmp (foldCase x) (foldCase z) = .lt from (byteCmp_lt_iff _ _).2 (by omega)]
        · rw [byteCmp_eq_iff] at hxy
          rw [byteCmp_eq_iff] at hyz
          rw [show byteCmp (foldCase x) (foldCase z) = .eq from (byteCmp_eq_iff _ _).2 (by omega)]
          exact ih ys zs hab hbc
        · simp at hbc
        · simp at hab
        · simp at hab
        · simp at hab

theorem hdrSortedB_cons (h : HeaderR) (t : HeadersL) (hs : hdrSortedB (h :: t) = true) :
    (∀ h2 ∈ t, nameCmp h.1 h2.1 = .lt) ∧ hdrSortedB t = true := by
  simp only [hdrSortedB, Bool.and_eq_true, List.all_eq_true, decide_eq_true_eq] at hs
  exact hs

theorem hdrGet_none_of_all_lt (t : HeadersL) (n : List Nat)
    (h : ∀ h2 ∈ t, nameCmp n h2.1 = .lt) : hdrGet t n = none := by
  induction t with
  | nil => rfl
  | cons k rest ih =>
    obtain ⟨k1, k2⟩ := k
    have hk := h ⟨k1, k2⟩ (List.mem_cons_self _ _)
    simp only [hdrGet]
    rw [if_neg (by simp [hk])]
    exact ih (fun h2 hm => h h2 (List.mem_cons_of_mem _ hm))

theorem hdrGet_append_existing (hs : HeadersL) (n a b : List Nat)
    (hsort : hdrSortedB hs = true) (hget : hdrGet hs n = some a) :
    hdrGet (hdrAppend hs n b) n = some (a ++ str (", ") ++ b) := by
  induction hs with
  | nil => simp [hdrGet] at hget
  | cons k rest ih =>
    obtain ⟨k1, k2⟩ := k
    obtain ⟨hlt, hsrest⟩ := hdrSortedB_cons _ _ hsort
    simp only [hdrGet] at hget
    rcases hcmp : nameCmp n k1 with _ | _ | _ <;> simp only [hdrAppend, hcmp]
    · rw [if_neg (by simp [hcmp])] at hget
      have hnone : hdrGet rest n = none := hdrGet_none_of_all_lt rest n
        (fun h2 hm => nameCmp_lt_trans n k1 h2.1 hcmp (hlt h2 hm))
      rw [hnone] at hget
      exact absurd hget (by simp)
    · rw [if_pos hcmp] at hget
      injection hget with ha
      subst ha
      simp [hdrGet, hcmp]
    · rw [if_neg (by simp [hcmp])] at hget
      simp only [hdrGet]
      rw [if_neg (by simp [hcmp])]
      exact ih hsrest hget

theorem hdrAppend_absent_eq_insert (hs : HeadersL) (n b : List Nat)
    (hget : hdrGet hs n = none) : hdrAppend hs n b = hdrInsert hs n b := by
  induction hs with
  | nil => rfl
  | cons k rest ih =>
    obtain ⟨k1, k2⟩ := k
    simp only [hdrGet] at hget
    rcases hcmp : nameCmp n k1 with _ | _ | _ <;> simp only [hdrAppend, hdrInsert, hcmp]
    · rw [if_pos hcmp] at hget
      exact absurd hget (by simp)
    · rw [if_neg (by simp [hcmp])] at hget
      rw [ih hget]

theorem hdrGet_insert_self (hs : HeadersL) (n v : List Nat) :
    hdrGet (hdrInsert hs n v) n = some v := by
  induction hs with
  | nil => simp [hdrInsert, hdrGet, nameCmp_self]
  | cons k rest ih =>
    obtain ⟨k1, k2⟩ := k
    rcases hcmp : nameCmp n k1 with _ | _ | _ <;> simp only [hdrInsert, hcmp]
    · simp [hdrGet, nameCmp_self]
    · simp [hdrGet, hcmp]
    · simp only [hdrGet]
      rw [if_neg (by simp [hcmp])]
      exact ih

theorem hdrAppend_all_gt (acc : HeadersL) (n v : List Nat)
    (h : ∀ k ∈ acc, nameCmp n k.1 = .gt) :
    hdrAppend acc n v = acc ++ [(n, v)] := by
  induction acc with
  | nil => rfl
  | cons k rest ih =>
    obtain ⟨k1, k2⟩ := k
    have hk := h ⟨k1, k2⟩ (List.mem_cons_self _ _)
    simp only [hdrAppend, hk]
    rw [ih (fun x hm => h x (List.mem_cons_of_mem _ hm))]
    simp

theorem nameCmp_lt_gt (a b : List Nat) (h : nameCmp a b = .lt) : nameCmp b a = .gt := by
  induction a generalizing b with
  | nil =>
    cases b with
    | nil => simp [nameCmp] at h
    | cons y ys => simp [nameCmp]
  | cons x xs ih =>
    cases b with
    | nil => simp [nameCmp] at h
    | cons y ys =>
      simp only [nameCmp] at h ⊢
      rcases hxy : byteCmp (foldCase x) (foldCase y) with _ | _ | _ <;> rw [hxy] at h <;>
        simp only [] at h
      · rw [byteCmp_lt_iff] at hxy
        rw [show byteCmp (foldCase y) (foldCase x) = .gt from (byteCmp_gt_iff _ _).2 (by omega)]
      · rw [byteCmp_eq_iff] at hxy
        rw [show byteCmp (foldCase y) (foldCase x) = .eq from (byteCmp_eq_iff _ _).2 (by omega)]
        exact ih ys h
      · simp at h

theorem foldlAppend_sorted (hs : HeadersL) :
    ∀ (acc : HeadersL),
    (∀ h2 ∈ hs, ∀ k ∈ acc, nameCmp k.1 h2.1 = .lt) →
    hdrSortedB hs = true →
    (∀ h2 ∈ hs, containsCRLF h2.2 = false) →
    hs.foldl (fun acc h => hdrAppend acc h.1 (collapseValue h.2)) acc = acc ++ hs := by
  induction hs with
  | nil =>
    intro acc _ _ _
    simp
  | cons h t ih =>
    intro acc hacc hsort hvals
    obtain ⟨hlt, hsort2⟩ := hdrSortedB_cons _ _ hsort
    simp only [List.foldl_cons]
    have hcoll : collapseValue h.2 = h.2 :=
      collapseAux_id _ (hvals h (List.mem_cons_self _ _))
    have hgt : ∀ k ∈ acc, nameCmp h.1 k.1 = .gt :=
      fun k hk => nameCmp_lt_gt _ _ (hacc h (List.mem_cons_self _ _) k hk)
    rw [hcoll, hdrAppend_all_gt acc h.1 h.2 hgt]
    have hacc2 : ∀ h2 ∈ t, ∀ k ∈ acc ++ [h], nameCmp k.1 h2.1 = .lt := by
      intro h2 hm k hk
      rcases List.mem_append.1 hk with hk2 | hk2
      · exact hacc h2 (List.mem_cons_of_mem _ hm) k hk2
      · have : k = h := by simpa using hk2
        subst this
        exact hlt h2 hm
    have := ih (acc ++ [h]) hacc2 hsort2 (fun h2 hm => hvals h2 (List.mem_cons_of_mem _ hm))
    rw [this]
    simp

theorem fromHeadersRef_id (hs : HeadersL) (hsort : hdrSortedB hs = true)
    (hvals : ∀ h2 ∈ hs, containsCRLF h2.2 = false) :
    fromHeadersRef hs = hs := by
  have := foldlAppend_sorted hs [] (by simp) hsort hvals
  simpa [fromHeadersRef] using this

theorem methodWfB_extension_destruct (s : List Nat) (h : methodWfB (.extension s) = true) :
    s ≠ [] ∧ (∀ b ∈ s, isTokenChar b = true) ∧ s.head? ≠ some 36 ∧
    s ≠ str ("DESCRIBE") ∧ s ≠ str ("GET_PARAMETER") ∧ s ≠ str ("OPTIONS") ∧
    s ≠ str ("PAUSE") ∧ s ≠ str ("PLAY") ∧ s ≠ str ("PLAY_NOTIFY") ∧
    s ≠ str ("REDIRECT") ∧ s ≠ str ("SETUP") ∧ s ≠ str ("SET_PARAMETER") ∧
    s ≠ str ("ANNOUNCE") ∧ s ≠ str ("RECORD") ∧ s ≠ str ("TEARDOWN") := by
  simp only [methodWfB, Bool.and_eq_true, Bool.not_eq_true', beq_eq_false_iff_ne,
    List.all_eq_true, ne_eq] at h
  tauto

theorem methodBytes_facts (m : Method) (h : methodWfB m = true) :
    methodBytes m ≠ [] ∧ (∀ b ∈ methodBytes m, isTokenChar b = true) ∧
      (methodBytes m).head? ≠ some 36 := by
  cases m
  case extension s =>
    obtain ⟨h1, h2, h3, _⟩ := methodWfB_extension_destruct s h
    exact ⟨h1, h2, h3⟩
  all_goals exact by decide

theorem methodFromBytes_methodBytes (m : Method) (h : methodWfB m = true) :
    methodFromBytes (methodBytes m) = m := by
  cases m
  case extension s =>
    obtain ⟨_, _, _, h1, h2, h3, h4, h5, h6, h7, h8, h9, h10, h11, h12⟩ :=
      methodWfB_extension_destruct s h
    simp [methodFromBytes, methodBytes, h1, h2, h3, h4, h5, h6, h7, h8, h9, h10, h11, h12]
  all_goals exact by decide

theorem rtspVersionP_ser (v : Version) (r : List Nat) :
    rtspVersionP (versionBytes v ++ r) = .ok r v := by
  cases v
  case v1_0 =>
    have e : versionBytes .v1_0 ++ r = str ("RTSP/") ++ (49 :: (str (".0") ++ r)) := by
      have : versionBytes .v1_0 = str ("RTSP/") ++ 49 :: str (".0") := by decide
      rw [this]
      simp
    rw [e]
    simp [rtspVersionP, pbind, pOneOf, pPure, pTag_append]
  case v2_0 =>
    have e : versionBytes .v2_0 ++ r = str ("RTSP/") ++ (50 :: (str (".0") ++ r)) := by
      have : versionBytes .v2_0 = str ("RTSP/") ++ 50 :: str (".0") := by decide
      rw [this]
      simp
    rw [e]
    simp [rtspVersionP, pbind, pOneOf, pPure, pTag_append]

theorem headerNameWfB_destruct (n : List Nat) (h : headerNameWfB n = true) :
    n ≠ [] ∧ ∀ b ∈ n, isTokenChar b = true := by
  simp only [headerNameWfB, Bool.and_eq_true, Bool.not_eq_true', beq_eq_false_iff_ne,
    List.all_eq_true, ne_eq] at h
  tauto

theorem headerValueWfB_destruct (v : List Nat) (h : headerValueWfB v = true) :
    containsCRLF v = false ∧ utf8Valid v = true ∧
      ∀ b, v.head? = some b → isSpaceB b = false := by
  simp only [headerValueWfB, Bool.and_eq_true, Bool.not_eq_true'] at h
  refine ⟨h.1.1, h.1.2, ?_⟩
  intro b hb
  have := h.2
  rw [hb] at this
  simpa using this

theorem utf8Guard_of_valid (l : List Nat) (h : utf8Valid l = true) :
    utf8Guard l = some l := by
  simp [utf8Guard, h]

theorem isSpaceB_false_of_token (b : Nat) (h : isTokenChar b = true) : isSpaceB b = false := by
  have := tokenChar_facts b h
  simp [isSpaceB]
  omega

theorem token_of_wf (n : List Nat) (b : Nat) (rs : List Nat)
    (hn : ∀ x ∈ n, isTokenChar x = true) (hb : isTokenChar b = false) :
    pMapRes token utf8Guard (n ++ b :: rs) = .ok (b :: rs) n := by
  have e1 : pTakeWhile isTokenChar (n ++ b :: rs) = .ok (b :: rs) n :=
    pTakeWhile_append _ _ _ _ hn hb
  have e2 : utf8Guard n = some n :=
    utf8Guard_of_ascii n (fun x hx => (tokenChar_facts x (hn x hx)).1)
  simp [pMapRes, token, e1, e2]

theorem messageHeaderP_ser (n v r : List Nat)
    (hn : headerNameWfB n = true) (hv : headerValueWfB v = true)
    (hr : ∀ b, r.head? = some b → isSpaceB b = false) :
    messageHeaderP (n ++ str (": ") ++ v ++ crlfBytes ++ r) = .ok r (n, v) := by
  obtain ⟨hn1, hn2⟩ := headerNameWfB_destruct n hn
  obtain ⟨hv1, hv2, hv3⟩ := headerValueWfB_destruct v hv
  have eshape : n ++ str (": ") ++ v ++ crlfBytes ++ r =
      n ++ 58 :: 32 :: (v ++ 13 :: 10 :: r) := by
    have : str (": ") = [58, 32] := by decide
    rw [this]
    simp [crlfBytes]
  rw [eshape]
  have e1 : pMapRes token utf8Guard (n ++ 58 :: 32 :: (v ++ 13 :: 10 :: r)) =
      .ok (58 :: 32 :: (v ++ 13 :: 10 :: r)) n :=
    token_of_wf n 58 _ hn2 (by decide)
  have e2 : pTakeWhile isSpaceB (32 :: (v ++ 13 :: 10 :: r)) =
      .ok (v ++ 13 :: 10 :: r) [32] := by
    cases v with
    | nil =>
      have := pTakeWhile_append isSpaceB [32] 13 (10 :: r) (by decide) (by decide)
      simpa using this
    | cons v0 vs =>
      have hv0 : isSpaceB v0 = false := hv3 v0 (by simp)
      have := pTakeWhile_append isSpaceB [32] v0 (vs ++ 13 :: 10 :: r) (by decide) hv0
      simpa using this
  have e3 : headerValueP (v ++ 13 :: 10 :: r) = .ok (13 :: 10 :: r) v := by
    simp [headerValueP, hvAux_ser v r hv1 hr]
  have e4 : pTag crlfBytes (13 :: 10 :: r) = .ok r () := by
    have := pTag_append crlfBytes r
    simpa [crlfBytes] using this
  have e1a : pTakeWhile isTokenChar (n ++ 58 :: 32 :: (v ++ 13 :: 10 :: r)) =
      .ok (58 :: 32 :: (v ++ 13 :: 10 :: r)) n :=
    pTakeWhile_append _ _ _ _ hn2 (by decide)
  have e1b : utf8Guard n = some n :=
    utf8Guard_of_ascii n (fun x hx => (tokenChar_facts x (hn2 x hx)).1)
  simp [messageHeaderP, pbind, pMapRes, popt, pPure, token, crlfP, e1a, e1b, e2, e3, e4,
    pChar_cons_eq, utf8Guard_of_valid v hv2]

theorem messageHeaderP_at_crlf (body : List Nat) :
    messageHeaderP (13 :: 10 :: body) = .error := by
  have e1 : pTakeWhile isTokenChar (13 :: 10 :: body) = .ok (13 :: 10 :: body) [] := by
    rw [pTakeWhile]
    rw [if_neg (by decide)]
  simp [messageHeaderP, pbind, pMapRes, token, e1, utf8Guard,
    show utf8Valid [] = true from rfl, pChar]

theorem pmany0_headers_ser (hs : List HeaderR) (body : List Nat)
    (hwf : ∀ h ∈ hs, headerWfB h = true) :
    pmany0 messageHeaderP (serHeaders hs ++ 13 :: 10 :: body) = .ok (13 :: 10 :: body) hs := by
  induction hs with
  | nil =>
    rw [pmany0]
    simp [serHeaders, messageHeaderP_at_crlf]
  | cons h t ih =>
    obtain ⟨n, v⟩ := h
    have hw := hwf ⟨n, v⟩ (List.mem_cons_self _ _)
    simp only [headerWfB, Bool.and_eq_true] at hw
    have hr : ∀ b, (serHeaders t ++ 13 :: 10 :: body).head? = some b → isSpaceB b = false := by
      intro b hb
      cases t with
      | nil =>
        simp [serHeaders] at hb
        have hb2 : b = 13 := by omega
        rw [hb2]
        decide
      | cons h2 t2 =>
        obtain ⟨n2, v2⟩ := h2
        have hw2 := hwf ⟨n2, v2⟩ (List.mem_cons_of_mem _ (List.mem_cons_self _ _))
        simp only [headerWfB, Bool.and_eq_true] at hw2
        obtain ⟨hn2ne, hn2tok⟩ := headerNameWfB_destruct n2 hw2.1
        cases n2 with
        | nil => exact absurd rfl hn2ne
        | cons b2 bs2 =>
          simp [serHeaders] at hb
          have hb2 : b = b2 := by omega
          rw [hb2]
          exact isSpaceB_false_of_token b2 (hn2tok b2 (by simp))
    have estep : messageHeaderP (serHeaders ((n, v) :: t) ++ 13 :: 10 :: body) =
        .ok (serHeaders t ++ 13 :: 10 :: body) (n, v) := by
      have := messageHeaderP_ser n v (serHeaders t ++ 13 :: 10 :: body) hw.1 hw.2 hr
      have eq2 : serHeaders ((n, v) :: t) ++ 13 :: 10 :: body =
          n ++ str (": ") ++ v ++ crlfBytes ++ (serHeaders t ++ 13 :: 10 :: body) := by
        simp [serHeaders]
      rw [eq2]
      exact this
    have hlen : (serHeaders t ++ 13 :: 10 :: body).length <
        (serHeaders ((n, v) :: t) ++ 13 :: 10 :: body).length := by
      simp [serHeaders, str]
      omega
    rw [pmany0]
    simp only [estep]
    rw [dif_pos hlen]
    simp only [ih (fun h2 hm => hwf h2 (List.mem_cons_of_mem _ hm))]

theorem headersBlockP_ser (hs : List HeaderR) (body : List Nat)
    (hwf : ∀ h ∈ hs, headerWfB h = true) :
    headersBlockP (serHeaders hs ++ crlfBytes ++ body) = .ok body hs := by
  have eshape : serHeaders hs ++ crlfBytes ++ body = serHeaders hs ++ 13 :: 10 :: body := by
    simp [crlfBytes]
  rw [eshape]
  have e1 := pmany0_headers_ser hs body hwf
  have e2 : pTag crlfBytes (13 :: 10 :: body) = .ok body () := by
    have := pTag_append crlfBytes body
    simpa [crlfBytes] using this
  simp [headersBlockP, pbind, pPure, crlfP, e1, e2]

theorem uriWfB_some_destruct (u : List Nat) (h : uriWfB (some u) = true) :
    u ≠ [] ∧ (∀ b ∈ u, isVcharB b = true) ∧ u.head? ≠ some 42 := by
  simp only [uriWfB, Bool.and_eq_true, Bool.not_eq_true', beq_eq_false_iff_ne,
    List.all_eq_true, ne_eq] at h
  tauto

theorem uriAlt_ser_none (x : List Nat) :
    palt (pmap (pChar 42) (fun _ => (none : Option (List Nat))))
      (pmap (pMapRes vchar1 utf8Guard) some) (42 :: x) = .ok x none := by
  simp [palt, pmap, pbind, pPure, pChar_cons_eq]

theorem uriAlt_ser_some (u : List Nat) (x : List Nat)
    (hne : u ≠ []) (hv : ∀ b ∈ u, isVcharB b = true) (hhead : u.head? ≠ some 42) :
    palt (pmap (pChar 42) (fun _ => (none : Option (List Nat))))
      (pmap (pMapRes vchar1 utf8Guard) some) (u ++ 32 :: x) = .ok (32 :: x) (some u) := by
  cases u with
  | nil => exact absurd rfl hne
  | cons u0 us =>
    have hu0 : u0 ≠ 42 := by
      intro he
      exact hhead (by simp [he])
    have e1 : pChar 42 (u0 :: (us ++ 32 :: x)) = .error := pChar_cons_ne 42 u0 _ hu0
    have e2 : pTakeWhile isVcharB ((u0 :: us) ++ 32 :: x) = .ok (32 :: x) (u0 :: us) :=
      pTakeWhile_append _ _ _ _ hv (by decide)
    have e3 : utf8Guard (u0 :: us) = some (u0 :: us) :=
      utf8Guard_of_ascii _ (fun b hb => by
        have := vchar_facts b (hv b hb)
        omega)
    rw [List.cons_append]
    simp only [palt, pmap, pbind, pMapRes, pPure, vchar1]
    rw [e1]
    rw [List.cons_append] at e2
    simp [e2, e3]

theorem methodStep_ser (m : Method) (x : List Nat) (hm : methodWfB m = true) :
    pmap (pMapRes token utf8Guard) methodFromBytes (methodBytes m ++ 32 :: x) =
      .ok (32 :: x) m := by
  obtain ⟨hmne, hmtok, _⟩ := methodBytes_facts m hm
  have e1 : pMapRes token utf8Guard (methodBytes m ++ 32 :: x) =
      .ok (32 :: x) (methodBytes m) := token_of_wf _ 32 _ hmtok (by decide)
  simp [pmap, pbind, pPure, e1, methodFromBytes_methodBytes m hm]

theorem requestLineP_ser (m : Method) (uri : Option (List Nat)) (v : Version) (rest : List Nat)
    (hm : methodWfB m = true) (hu : uriWfB uri = true) :
    requestLineP (serRequestLine m uri v ++ rest) = .ok rest ⟨m, uri, v⟩ := by
  have e4 : rtspVersionP (versionBytes v ++ 13 :: 10 :: rest) = .ok (13 :: 10 :: rest) v :=
    rtspVersionP_ser v _
  have e5 : crlfP (13 :: 10 :: rest) = .ok rest () := by
    have := pTag_append crlfBytes rest
    simpa [crlfP, crlfBytes] using this
  cases uri with
  | none =>
    have eshape : serRequestLine m none v ++ rest =
        methodBytes m ++ 32 :: (42 :: 32 :: (versionBytes v ++ 13 :: 10 :: rest)) := by
      simp [serRequestLine, crlfBytes, List.append_assoc]
    rw [eshape]
    have e1 := methodStep_ser m (42 :: 32 :: (versionBytes v ++ 13 :: 10 :: rest)) hm
    have e3 := uriAlt_ser_none (32 :: (versionBytes v ++ 13 :: 10 :: rest))
    simp only [requestLineP, pbind]
    rw [e1]
    simp [spP, pChar_cons_eq, e3, e4, e5, pPure]
  | some u =>
    obtain ⟨hne, hv2, hhead⟩ := uriWfB_some_destruct u hu
    have eshape : serRequestLine m (some u) v ++ rest =
        methodBytes m ++ 32 :: (u ++ 32 :: (versionBytes v ++ 13 :: 10 :: rest)) := by
      simp [serRequestLine, crlfBytes, List.append_assoc]
    rw [eshape]
    have e1 := methodStep_ser m (u ++ 32 :: (versionBytes v ++ 13 :: 10 :: rest)) hm
    have e3 := uriAlt_ser_some u (versionBytes v ++ 13 :: 10 :: rest) hne hv2 hhead
    simp only [requestLineP, pbind]
    rw [e1]
    simp [spP, pChar_cons_eq, e3, e4, e5, pPure]

theorem decimalBytes_three (n : Nat) (h1 : 100 ≤ n) (h2 : n ≤ 999) :
    decimalBytes n = [48 + n / 100, 48 + n / 10 % 10, 48 + n % 10] := by
  rw [decimalBytes]
  rw [dif_neg (by omega)]
  rw [decimalBytes]
  rw [dif_neg (by omega : ¬n / 10 < 10)]
  rw [decimalBytes]
  rw [dif_pos (by omega : n / 10 / 10 < 10)]
  have e1 : n / 10 / 10 = n / 100 := by omega
  have e2 : n / 10 % 10 = n / 10 % 10 := rfl
  rw [e1]
  simp

theorem pDigits3_ser (n : Nat) (r : List Nat) (h1 : 100 ≤ n) (h2 : n ≤ 999) :
    pDigits3 (decimalBytes n ++ r) =
      .ok r [48 + n / 100, 48 + n / 10 % 10, 48 + n % 10] := by
  rw [decimalBytes_three n h1 h2]
  have hd : (isDigitB (48 + n / 100) && isDigitB (48 + n / 10 % 10) &&
      isDigitB (48 + n % 10)) = true := by
    simp [isDigitB]
    omega
  simp [pDigits3, hd]

theorem digitsVal_all_digits (l : List Nat) (hd : ∀ b ∈ l, isDigitB b = true) :
    ∀ acc, digitsVal l acc = some (l.foldl (fun a b => a * 10 + (b - 48)) acc) := by
  induction l with
  | nil => intro acc; rfl
  | cons b rest ih =>
    intro acc
    simp only [digitsVal, List.foldl_cons]
    rw [if_pos (hd b (List.mem_cons_self _ _))]
    exact ih (fun x hx => hd x (List.mem_cons_of_mem _ hx)) _

theorem parseUnsigned_all_digits (bound : Nat) (l : List Nat) (hne : l ≠ [])
    (hd : ∀ b ∈ l, isDigitB b = true) :
    parseUnsigned bound l =
      if digitsNat l < bound then some (digitsNat l) else none := by
  unfold parseUnsigned
  have hhead : ¬(l.head? = some 43) := by
    cases l with
    | nil => exact absurd rfl hne
    | cons b bs =>
      have := hd b (List.mem_cons_self _ _)
      simp only [isDigitB, Bool.and_eq_true, decide_eq_true_eq] at this
      simp
      omega
  rw [if_neg hhead, if_neg hne, digitsVal_all_digits l hd 0]
  rfl

theorem parseUnsigned_digits3 (n : Nat) (h1 : 100 ≤ n) (h2 : n ≤ 999) :
    parseUnsigned (2 ^ 16) [48 + n / 100, 48 + n / 10 % 10, 48 + n % 10] = some n := by
  rw [parseUnsigned_all_digits (2 ^ 16) _ (by simp) (by
    intro b hb
    simp at hb
    simp [isDigitB]
    omega)]
  have hval : digitsNat [48 + n / 100, 48 + n / 10 % 10, 48 + n % 10] = n := by
    simp [digitsNat]
    omega
  rw [hval, if_pos (by omega)]

theorem statusLineP_ser (v : Version) (s : StatusCode) (reason : List Nat) (rest : List Nat)
    (h1 : 100 ≤ statusToU16 s) (h2 : statusToU16 s ≤ 999)
    (hround : statusFromU16 (statusToU16 s) = s)
    (hr1 : containsCRLF reason = false) (hr2 : utf8Valid reason = true) :
    statusLineP (serStatusLine v s reason ++ rest) = .ok rest ⟨v, s, reason⟩ := by
  have eshape : serStatusLine v s reason ++ rest =
      versionBytes v ++ 32 :: (decimalBytes (statusToU16 s) ++
        32 :: (reason ++ 13 :: 10 :: rest)) := by
    simp [serStatusLine, crlfBytes, List.append_assoc]
  rw [eshape]
  have e1 := rtspVersionP_ser v
    (32 :: (decimalBytes (statusToU16 s) ++ 32 :: (reason ++ 13 :: 10 :: rest)))
  have e2 : pMapRes (pMapRes pDigits3 utf8Guard) (parseUnsigned (2 ^ 16))
      (decimalBytes (statusToU16 s) ++ 32 :: (reason ++ 13 :: 10 :: rest)) =
      .ok (32 :: (reason ++ 13 :: 10 :: rest)) (statusToU16 s) := by
    have ed := pDigits3_ser (statusToU16 s) (32 :: (reason ++ 13 :: 10 :: rest)) h1 h2
    have eg : utf8Guard [48 + statusToU16 s / 100, 48 + statusToU16 s / 10 % 10,
        48 + statusToU16 s % 10] = some _ := utf8Guard_of_ascii _ (by
      intro b hb
      simp at hb
      omega)
    have ep := parseUnsigned_digits3 (statusToU16 s) h1 h2
    have ep2 : parseUnsigned 65536 [48 + statusToU16 s / 100, 48 + statusToU16 s / 10 % 10,
        48 + statusToU16 s % 10] = some (statusToU16 s) := ep
    simp [pMapRes, ed, eg, ep, ep2]
  have e3 : pMapRes pTakeUntilCrlf utf8Guard (reason ++ 13 :: 10 :: rest) =
      .ok (13 :: 10 :: rest) reason := by
    have et := pTakeUntilCrlf_append reason rest hr1
    simp [pMapRes, et, utf8Guard_of_valid reason hr2]
  have e5 : crlfP (13 :: 10 :: rest) = .ok rest () := by
    have := pTag_append crlfBytes rest
    simpa [crlfP, crlfBytes] using this
  simp only [statusLineP, pbind]
  rw [e1]
  simp only [spP, pChar_cons_eq]
  rw [e2]
  simp only [pChar_cons_eq]
  rw [e3]
  simp [e5, pPure, hround]

theorem contentLengthP_consistent (hs : HeadersL) (body : List Nat) (i : List Nat)
    (h : clConsistentB hs body = true) :
    contentLengthP hs i = .ok i body.length := by
  unfold contentLengthP
  unfold clConsistentB at h
  cases hfind : findContentLength hs with
  | none =>
    rw [hfind] at h
    simp at h
    simp [h]
  | some v =>
    rw [hfind] at h
    simp at h
    simp [h]

theorem pTake_exact (l : List Nat) : pTake l.length l = .ok [] l := by
  simp [pTake]

theorem requestP_ser (r : RequestO) (h : requestWfB r = true) :
    requestP (serRequest r) =
      .ok [] ⟨r.method, r.requestUri, r.version, r.headers, r.body⟩ := by
  simp only [requestWfB, Bool.and_eq_true] at h
  obtain ⟨⟨⟨hm, hu⟩, hh⟩, hcl⟩ := h
  have hh2 : ∀ x ∈ r.headers, headerWfB x = true := by
    simp only [headersWfB, Bool.and_eq_true, List.all_eq_true] at hh
    exact hh.2
  have eshape : serRequest r = serRequestLine r.method r.requestUri r.version ++
      (serHeaders r.headers ++ crlfBytes ++ r.body) := by
    simp [serRequest, List.append_assoc]
  rw [eshape]
  have e1 := requestLineP_ser r.method r.requestUri r.version
    (serHeaders r.headers ++ crlfBytes ++ r.body) hm hu
  have e2 := headersBlockP_ser r.headers r.body hh2
  have e3 := contentLengthP_consistent r.headers r.body r.body hcl
  have e4 := pTake_exact r.body
  simp only [requestP, pbind]
  rw [e1]
  simp only [e2]
  simp [e3, e4, pPure]

theorem responseP_ser (r : ResponseO) (h : responseWfB r = true) :
    responseP (serResponse r) =
      .ok [] ⟨r.version, r.status, r.reasonPhrase, r.headers, r.body⟩ := by
  simp only [responseWfB, Bool.and_eq_true, decide_eq_true_eq, beq_iff_eq,
    Bool.not_eq_true'] at h
  obtain ⟨⟨⟨⟨⟨⟨h1, h2⟩, h3⟩, h4⟩, h5⟩, hh⟩, hcl⟩ := h
  have hh2 : ∀ x ∈ r.headers, headerWfB x = true := by
    simp only [headersWfB, Bool.and_eq_true, List.all_eq_true] at hh
    exact hh.2
  have eshape : serResponse r = serStatusLine r.version r.status r.reasonPhrase ++
      (serHeaders r.headers ++ crlfBytes ++ r.body) := by
    simp [serResponse, List.append_assoc]
  rw [eshape]
  have e1 := statusLineP_ser r.version r.status r.reasonPhrase
    (serHeaders r.headers ++ crlfBytes ++ r.body) h1 h2 h3 h4 h5
  have e2 := headersBlockP_ser r.headers r.body hh2
  have e3 := contentLengthP_consistent r.headers r.body r.body hcl
  have e4 := pTake_exact r.body
  simp only [responseP, pbind]
  rw [e1]
  simp only [e2]
  simp [e3, e4, pPure]

theorem pmany0_crlfP_no_crlf (b : Nat) (t : List Nat) (hb : b ≠ 13) :
    pmany0 crlfP (b :: t) = .ok (b :: t) [] := by
  rw [pmany0]
  have e : crlfP (b :: t) = .error := by
    have := pTag_cons_ne 13 [10] b t hb
    simpa [crlfP, crlfBytes] using this
  simp [e]

theorem dataP_not_dollar (b : Nat) (t : List Nat) (hb : b ≠ 36) :
    dataP (b :: t) = .error := by
  simp [dataP, pbind, pChar_cons_ne 36 b t hb]

theorem requestP_on_version (v : Version) (rest : List Nat) :
    requestP (versionBytes v ++ rest) = .error := by
  have step : ∀ tail : List Nat, requestP (str ("RTSP") ++ 47 :: tail) = .error := by
    intro tail
    have e1 : pMapRes token utf8Guard (str ("RTSP") ++ 47 :: tail) =
        .ok (47 :: tail) (str ("RTSP")) :=
      token_of_wf _ 47 _ (by decide) (by decide)
    have e2 : pChar 32 (47 :: tail) = .error := pChar_cons_ne 32 47 tail (by decide)
    simp only [requestP, requestLineP, pbind, pmap, pPure]
    rw [e1]
    simp [spP, e2]
  cases v
  case v1_0 =>
    have e : versionBytes .v1_0 ++ rest = str ("RTSP") ++ 47 :: (str ("1.0") ++ rest) := by
      have : versionBytes .v1_0 = str ("RTSP") ++ 47 :: str ("1.0") := by decide
      rw [this]
      simp
    rw [e]
    exact step _
  case v2_0 =>
    have e : versionBytes .v2_0 ++ rest = str ("RTSP") ++ 47 :: (str ("2.0") ++ rest) := by
      have : versionBytes .v2_0 = str ("RTSP") ++ 47 :: str ("2.0") := by decide
      rw [this]
      simp
    rw [e]
    exact step _

theorem messageP_request_ser (r : RequestO) (h : requestWfB r = true) :
    messageP (serRequest r) =
      .ok [] (.request ⟨r.method, r.requestUri, r.version, r.headers, r.body⟩) := by
  have hm : methodWfB r.method = true := by
    simp only [requestWfB, Bool.and_eq_true] at h
    exact h.1.1.1
  obtain ⟨hmne, hmtok, hmhead⟩ := methodBytes_facts r.method hm
  obtain ⟨m0, ms, hmb⟩ : ∃ m0 ms, methodBytes r.method = m0 :: ms := by
    cases hx : methodBytes r.method with
    | nil => exact absurd hx hmne
    | cons a as => exact ⟨a, as, rfl⟩
  have hm0tok : isTokenChar m0 = true := hmtok m0 (by rw [hmb]; simp)
  have hm0 := tokenChar_facts m0 hm0tok
  have hm0d : m0 ≠ 36 := by
    intro he
    rw [hmb, he] at hmhead
    exact hmhead rfl
  have eshape : serRequest r = m0 :: (ms ++ [32] ++
      (match r.requestUri with | some u => u | none => [42]) ++ [32] ++
      versionBytes r.version ++ crlfBytes ++ serHeaders r.headers ++ crlfBytes ++ r.body) := by
    simp [serRequest, serRequestLine, hmb, List.append_assoc]
  have hskip : pmany0 crlfP (serRequest r) = .ok (serRequest r) [] := by
    rw [eshape]
    exact pmany0_crlfP_no_crlf m0 _ hm0.2.1
  have hdata : dataP (serRequest r) = .error := by
    rw [eshape]
    exact dataP_not_dollar m0 _ hm0d
  have hreq := requestP_ser r h
  simp only [messageP, pbind]
  rw [hskip]
  simp only [palt, pmap, pbind, pPure]
  rw [hdata]
  simp only [hreq]

theorem messageP_response_ser (r : ResponseO) (h : responseWfB r = true) :
    messageP (serResponse r) =
      .ok [] (.response ⟨r.version, r.status, r.reasonPhrase, r.headers, r.body⟩) := by
  obtain ⟨v0, vs, hvb, hv0ne13, hv0ne36⟩ :
      ∃ v0 vs, versionBytes r.version = v0 :: vs ∧ v0 ≠ 13 ∧ v0 ≠ 36 := by
    cases r.version
    · exact ⟨82, (str ("TSP/1.0")), by decide, by decide, by decide⟩
    · exact ⟨82, (str ("TSP/2.0")), by decide, by decide, by decide⟩
  have eshape : serResponse r = versionBytes r.version ++ ([32] ++
      decimalBytes (statusToU16 r.status) ++ [32] ++ r.reasonPhrase ++ crlfBytes ++
      serHeaders r.headers ++ crlfBytes ++ r.body) := by
    simp [serResponse, serStatusLine, List.append_assoc]
  have eshape2 : serResponse r = v0 :: (vs ++ ([32] ++
      decimalBytes (statusToU16 r.status) ++ [32] ++ r.reasonPhrase ++ crlfBytes ++
      serHeaders r.headers ++ crlfBytes ++ r.body)) := by
    rw [eshape, hvb]
    simp
  have hskip : pmany0 crlfP (serResponse r) = .ok (serResponse r) [] := by
    rw [eshape2]
    exact pmany0_crlfP_no_crlf v0 _ hv0ne13
  have hdata : dataP (serResponse r) = .error := by
    rw [eshape2]
    exact dataP_not_dollar v0 _ hv0ne36
  have hreqerr : requestP (serResponse r) = .error := by
    rw [eshape]
    exact requestP_on_version r.version _
  have hresp := responseP_ser r h
  simp only [messageP, pbind]
  rw [hskip]
  simp only [palt, pmap, pbind, pPure]
  rw [hdata, hreqerr]
  simp only [hresp]

theorem messageP_data_frame (ch hi lo : Nat) (tail : List Nat) :
    (hi * 256 + lo ≤ tail.length →
      messageP (36 :: ch :: hi :: lo :: tail) =
        .ok (tail.drop (hi * 256 + lo)) (.data ⟨ch, tail.take (hi * 256 + lo)⟩)) ∧
    (tail.length < hi * 256 + lo →
      messageP (36 :: ch :: hi :: lo :: tail) = .incomplete) := by
  have hskip : pmany0 crlfP (36 :: ch :: hi :: lo :: tail) =
      .ok (36 :: ch :: hi :: lo :: tail) [] :=
    pmany0_crlfP_no_crlf 36 _ (by decide)
  have e1 : pChar 36 (36 :: ch :: hi :: lo :: tail) = .ok (ch :: hi :: lo :: tail) () :=
    pChar_cons_eq 36 _
  have e2 : pTake 1 (ch :: hi :: lo :: tail) = .ok (hi :: lo :: tail) [ch] := by
    simp [pTake]
  have e3 : pBeU16 (hi :: lo :: tail) = .ok tail (hi * 256 + lo) := rfl
  constructor
  · intro hle
    have e4 : pTake (hi * 256 + lo) tail =
        .ok (tail.drop (hi * 256 + lo)) (tail.take (hi * 256 + lo)) := by
      simp [pTake]
      omega
    simp only [messageP, pbind]
    rw [hskip]
    simp only [palt, pmap, pbind, pPure, dataP]
    rw [e1]
    simp only [e2]
    simp only [e3]
    simp [e4]
  · intro hlt
    have e4 : pTake (hi * 256 + lo) tail = .incomplete := by
      simp [pTake]
      omega
    simp only [messageP, pbind]
    rw [hskip]
    simp only [palt, pmap, pbind, pPure, dataP]
    rw [e1]
    simp only [e2]
    simp only [e3]
    simp [e4]

theorem headersWfB_destruct (hs : HeadersL) (h : headersWfB hs = true) :
    hdrSortedB hs = true ∧ ∀ x ∈ hs, headerWfB x = true := by
  simp only [headersWfB, Bool.and_eq_true, List.all_eq_true] at h
  exact h

theorem fromHeadersRef_of_wf (hs : HeadersL) (h : headersWfB hs = true) :
    fromHeadersRef hs = hs := by
  obtain ⟨h1, h2⟩ := headersWfB_destruct hs h
  refine fromHeadersRef_id hs h1 ?_
  intro h3 hm3
  have := h2 h3 hm3
  simp only [headerWfB, Bool.and_eq_true] at this
  exact (headerValueWfB_destruct _ this.2).1

theorem msgParse_request (r : RequestO) (h : requestWfB r = true) :
    Msg.parse (serRequest r) = .ok (.request r) (serRequest r).length := by
  have e := messageP_request_ser r h
  have hh : headersWfB r.headers = true := by
    simp only [requestWfB, Bool.and_eq_true] at h
    exact h.1.2
  have hfh := fromHeadersRef_of_wf r.headers hh
  have htoOwned : (MsgR.request ⟨r.method, r.requestUri, r.version, r.headers,
      r.body⟩ : MsgR).toOwned = some (.request r) := by
    cases huri : r.requestUri with
    | none =>
      simp [MsgR.toOwned, hfh]
      rw [← huri]
    | some u =>
      simp [MsgR.toOwned, urlParse, hfh]
      rw [← huri]
  simp [Msg.parse, e, htoOwned]

theorem msgParse_response (r : ResponseO) (h : responseWfB r = true) :
    Msg.parse (serResponse r) = .ok (.response r) (serResponse r).length := by
  have e := messageP_response_ser r h
  have hh : headersWfB r.headers = true := by
    simp only [responseWfB, Bool.and_eq_true] at h
    exact h.1.2
  have hfh := fromHeadersRef_of_wf r.headers hh
  have htoOwned : (MsgR.response ⟨r.version, r.status, r.reasonPhrase, r.headers,
      r.body⟩ : MsgR).toOwned = some (.response r) := by
    simp [MsgR.toOwned, hfh]
  simp [Msg.parse, e, htoOwned]

theorem msgParse_data_wf (d : DataO) (h : dataWfB d = true) :
    Msg.parse (serData d) = .ok (.data d) (serData d).length := by
  simp only [dataWfB, Bool.and_eq_true, decide_eq_true_eq] at h
  have hL : (d.body.length % 65536 / 256) * 256 + d.body.length % 65536 % 256 =
      d.body.length := by omega
  have hstep := (messageP_data_frame d.channelId (d.body.length % 65536 / 256)
    (d.body.length % 65536 % 256) d.body).1 (by omega)
  rw [hL] at hstep
  rw [List.drop_length, List.take_length] at hstep
  have eshape : serData d = 36 :: d.channelId :: (d.body.length % 65536 / 256) ::
      (d.body.length % 65536 % 256) :: d.body := by
    simp [serData]
  rw [eshape]
  simp [Msg.parse, hstep, MsgR.toOwned]

/-- The amended universal round trip, used by the C1 theorem. -/
theorem parse_writeBytes_roundtrip (m : Msg) (h : msgWfB m = true) :
    Msg.parse m.writeBytes = .ok m m.writeLen := by
  cases m with
  | request r => simpa [Msg.writeBytes, Msg.writeLen] using msgParse_request r h
  | response r => simpa [Msg.writeBytes, Msg.writeLen] using msgParse_response r h
  | data d => simpa [Msg.writeBytes, Msg.writeLen] using msgParse_data_wf d h

theorem requestP_ser_stage (m : Method) (uri : Option (List Nat)) (v : Version)
    (hs : HeadersL) (rest : List Nat)
    (hm : methodWfB m = true) (hu : uriWfB uri = true)
    (hh : ∀ x ∈ hs, headerWfB x = true) :
    requestP (serRequestLine m uri v ++ (serHeaders hs ++ crlfBytes ++ rest)) =
      pbind (contentLengthP hs) (fun n => pbind (pTake n) (fun body =>
        pPure (⟨m, uri, v, hs, body⟩ : RequestR))) rest := by
  have e1 := requestLineP_ser m uri v (serHeaders hs ++ crlfBytes ++ rest) hm hu
  have e2 := headersBlockP_ser hs rest hh
  simp only [requestP, pbind]
  rw [e1]
  simp only [e2]

theorem responseP_ser_stage (v : Version) (s : StatusCode) (reason : List Nat)
    (hs : HeadersL) (rest : List Nat)
    (h1 : 100 ≤ statusToU16 s) (h2 : statusToU16 s ≤ 999)
    (hround : statusFromU16 (statusToU16 s) = s)
    (hr1 : containsCRLF reason = false) (hr2 : utf8Valid reason = true)
    (hh : ∀ x ∈ hs, headerWfB x = true) :
    responseP (serStatusLine v s reason ++ (serHeaders hs ++ crlfBytes ++ rest)) =
      pbind (contentLengthP hs) (fun n => pbind (pTake n) (fun body =>
        pPure (⟨v, s, reason, hs, body⟩ : ResponseR))) rest := by
  have e1 := statusLineP_ser v s reason (serHeaders hs ++ crlfBytes ++ rest) h1 h2 hround hr1 hr2
  have e2 := headersBlockP_ser hs rest hh
  simp only [responseP, pbind]
  rw [e1]
  simp only [e2]

theorem messageP_request_stage (m : Method) (uri : Option (List Nat)) (v : Version)
    (hs : HeadersL) (rest : List Nat)
    (hm : methodWfB m = true) (hu : uriWfB uri = true)
    (hh : ∀ x ∈ hs, headerWfB x = true)
    :
    (pbind (contentLengthP hs) (fun n => pbind (pTake n) (fun body =>
        pPure (⟨m, uri, v, hs, body⟩ : RequestR))) rest = .incomplete →
      messageP (serRequestLine m uri v ++ (serHeaders hs ++ crlfBytes ++ rest)) =
        .incomplete) ∧
    (pbind (contentLengthP hs) (fun n => pbind (pTake n) (fun body =>
        pPure (⟨m, uri, v, hs, body⟩ : RequestR))) rest = .failure →
      messageP (serRequestLine m uri v ++ (serHeaders hs ++ crlfBytes ++ rest)) =
        .failure) := by
  obtain ⟨hmne, hmtok, hmhead⟩ := methodBytes_facts m hm
  obtain ⟨m0, ms, hmb⟩ : ∃ m0 ms, methodBytes m = m0 :: ms := by
    cases hx : methodBytes m with
    | nil => exact absurd hx hmne
    | cons a as => exact ⟨a, as, rfl⟩
  have hm0tok : isTokenChar m0 = true := hmtok m0 (by rw [hmb]; simp)
  have hm0 := tokenChar_facts m0 hm0tok
  have hm0d : m0 ≠ 36 := by
    intro he
    rw [hmb, he] at hmhead
    exact hmhead rfl
  have eshape : serRequestLine m uri v ++ (serHeaders hs ++ crlfBytes ++ rest) =
      m0 :: (ms ++ [32] ++ (match uri with | some u => u | none => [42]) ++ [32] ++
        versionBytes v ++ crlfBytes ++ (serHeaders hs ++ crlfBytes ++ rest)) := by
    simp [serRequestLine, hmb, List.append_assoc]
  have hskip : pmany0 crlfP (serRequestLine m uri v ++ (serHeaders hs ++ crlfBytes ++ rest)) =
      .ok (serRequestLine m uri v ++ (serHeaders hs ++ crlfBytes ++ rest)) [] := by
    rw [eshape]
    exact pmany0_crlfP_no_crlf m0 _ hm0.2.1
  have hdata : dataP (serRequestLine m uri v ++ (serHeaders hs ++ crlfBytes ++ rest)) =
      .error := by
    rw [eshape]
    exact dataP_not_dollar m0 _ hm0d
  have hreq := requestP_ser_stage m uri v hs rest hm hu hh
  constructor <;> intro hst <;>
    (simp only [messageP, pbind]
     rw [hskip]
     simp only [palt, pmap, pbind, pPure]
     rw [hdata, hreq, hst])

theorem messageP_response_stage (v : Version) (s : StatusCode) (reason : List Nat)
    (hs : HeadersL) (rest : List Nat)
    (h1 : 100 ≤ statusToU16 s) (h2 : statusToU16 s ≤ 999)
    (hround : statusFromU16 (statusToU16 s) = s)
    (hr1 : containsCRLF reason = false) (hr2 : utf8Valid reason = true)
    (hh : ∀ x ∈ hs, headerWfB x = true)
    :
    (pbind (contentLengthP hs) (fun n => pbind (pTake n) (fun body =>
        pPure (⟨v, s, reason, hs, body⟩ : ResponseR))) rest = .incomplete →
      messageP (serStatusLine v s reason ++ (serHeaders hs ++ crlfBytes ++ rest)) =
        .incomplete) ∧
    (pbind (contentLengthP hs) (fun n => pbind (pTake n) (fun body =>
        pPure (⟨v, s, reason, hs, body⟩ : ResponseR))) rest = .failure →
      messageP (serStatusLine v s reason ++ (serHeaders hs ++ crlfBytes ++ rest)) =
        .failure) := by
  obtain ⟨v0, vs, hvb, hv0ne13, hv0ne36⟩ :
      ∃ v0 vs, versionBytes v = v0 :: vs ∧ v0 ≠ 13 ∧ v0 ≠ 36 := by
    cases v
    · exact ⟨82, (str ("TSP/1.0")), by decide, by decide, by decide⟩
    · exact ⟨82, (str ("TSP/2.0")), by decide, by decide, by decide⟩
  have eshape : serStatusLine v s reason ++ (serHeaders hs ++ crlfBytes ++ rest) =
      versionBytes v ++ ([32] ++ decimalBytes (statusToU16 s) ++ [32] ++ reason ++
        crlfBytes ++ (serHeaders hs ++ crlfBytes ++ rest)) := by
    simp [serStatusLine, List.append_assoc]
  have eshape2 : serStatusLine v s reason ++ (serHeaders hs ++ crlfBytes ++ rest) =
      v0 :: (vs ++ ([32] ++ decimalBytes (statusToU16 s) ++ [32] ++ reason ++
        crlfBytes ++ (serHeaders hs ++ crlfBytes ++ rest))) := by
    rw [eshape, hvb]
    simp
  have hskip : pmany0 crlfP (serStatusLine v s reason ++ (serHeaders hs ++ crlfBytes ++ rest)) =
      .ok (serStatusLine v s reason ++ (serHeaders hs ++ crlfBytes ++ rest)) [] := by
    rw [eshape2]
    exact pmany0_crlfP_no_crlf v0 _ hv0ne13
  have hdata : dataP (serStatusLine v s reason ++ (serHeaders hs ++ crlfBytes ++ rest)) =
      .error := by
    rw [eshape2]
    exact dataP_not_dollar v0 _ hv0ne36
  have hreqerr : requestP (serStatusLine v s reason ++ (serHeaders hs ++ crlfBytes ++ rest)) =
      .error := by
    rw [eshape]
    exact requestP_on_version v _
  have hresp := responseP_ser_stage v s reason hs rest h1 h2 hround hr1 hr2 hh
  constructor <;> intro hst <;>
    (simp only [messageP, pbind]
     rw [hskip]
     simp only [palt, pmap, pbind, pPure]
     rw [hdata, hreqerr, hresp, hst])

/-- C1 (amended): for every owned message m constructible via the
builders whose components are wire-safe (msgWfB: request method a
nonempty token not starting with the dollar byte and, for Extension,
not a canonical spelling; URI, when present, nonempty printable ASCII
not starting with an asterisk; response status serializing to three
digits and stable under the u16 round trip; reason phrase and header
values CRLF-free UTF-8, values not starting with blank; header names
nonempty tokens; the stored Content-Length consistent with the body;
data bodies shorter than 65536 bytes), parsing the serialization
returns exactly m and the write_len byte count. -/
theorem rtsp_c1_roundtrip_amended (m : Msg) (h : msgWfB m = true) :
    Msg.parse m.writeBytes = .ok m m.writeLen :=
  parse_writeBytes_roundtrip m h

/-- Witness for C1 at the SET_PARAMETER example message. -/
theorem rtsp_c1_roundtrip_amended_witness :
    msgWfB c1WitnessMsg = true ∧
    Msg.parse c1WitnessMsg.writeBytes = .ok c1WitnessMsg c1WitnessMsg.writeLen :=
  ⟨by decide, rtsp_c1_roundtrip_amended c1WitnessMsg (by decide)⟩

/-- C1 counterexample: the builder-constructible request with a stale
explicit Content-Length header of five and an empty body serializes to
a message whose parse is Incomplete, not the original message. -/
theorem rtsp_c1_counterexample :
    Msg.parse (Msg.writeBytes c1CounterMsg) = .incomplete ∧
    Msg.parse (Msg.writeBytes c1CounterMsg) ≠
      .ok c1CounterMsg (Msg.writeLen c1CounterMsg) := by
  have hw : Msg.writeBytes c1CounterMsg =
      serRequestLine .options none .v2_0 ++
        (serHeaders [(contentLengthName, str ("5"))] ++ crlfBytes ++ []) := by decide
  have hstage : pbind (contentLengthP [(contentLengthName, str ("5"))])
      (fun n => pbind (pTake n) (fun body =>
        pPure (⟨.options, none, .v2_0, [(contentLengthName, str ("5"))], body⟩ : RequestR)))
      [] = .incomplete := by decide
  have hmsg := (messageP_request_stage .options none .v2_0
    [(contentLengthName, str ("5"))] [] (by decide) (by decide) (by decide)).1 hstage
  simp only [List.append_nil] at hmsg
  have hmain : Msg.parse (Msg.writeBytes c1CounterMsg) = .incomplete := by
    rw [hw]
    simp [Msg.parse, hmsg]
  refine ⟨hmain, ?_⟩
  rw [hmain]
  simp

/-- C2 (amended): build with a non-empty body inserts Content-Length
with the decimal body length, replacing any prior value; build with an
empty body and empty leave the header map unchanged (so Content-Length
is then present exactly when it was set explicitly), for both the
request and the response builder. -/
theorem rtsp_c2_content_length_amended :
    (∀ (b : RequestBuilderS) (body : List Nat), body ≠ [] →
      hdrGet (b.build body).headers contentLengthName =
        some (decimalBytes body.length)) ∧
    (∀ b : RequestBuilderS, (b.build []).headers = b.headers ∧
      b.emptyBody.headers = b.headers) ∧
    (∀ (b : ResponseBuilderS) (body : List Nat), body ≠ [] →
      hdrGet (b.build body).headers contentLengthName =
        some (decimalBytes body.length)) ∧
    (∀ b : ResponseBuilderS, (b.build []).headers = b.headers ∧
      b.emptyBody.headers = b.headers) := by
  refine ⟨?_, ?_, ?_, ?_⟩
  · intro b body hne
    simp [RequestBuilderS.build, hne, hdrGet_insert_self]
  · intro b
    exact ⟨by simp [RequestBuilderS.build], rfl⟩
  · intro b body hne
    simp [ResponseBuilderS.build, hne, hdrGet_insert_self]
  · intro b
    exact ⟨by simp [ResponseBuilderS.build], rfl⟩

/-- Witness for C2 at a one-byte body. -/
theorem rtsp_c2_content_length_amended_witness :
    (str ("x") ≠ []) ∧
    hdrGet ((RequestBuilderS.new .options .v2_0).build (str ("x"))).headers
      contentLengthName = some (decimalBytes (str ("x")).length) :=
  ⟨by decide, rtsp_c2_content_length_amended.1 _ _ (by decide)⟩

/-- C2 counterexample: a request builder given an explicit
Content-Length header and then closed with empty keeps the header, so
Content-Length is not absent after building with an empty body. -/
theorem rtsp_c2_counterexample :
    hdrGet (RequestBuilderS.emptyBody
      ((RequestBuilderS.new .options .v2_0).header contentLengthName
        (str ("5")))).headers contentLengthName = some (str ("5")) := by
  decide

/-- Helper for C3: an unknown numeric value converts to Extension. -/
theorem statusFromU16_unknown (n : Nat) (h : knownStatusNum n = false) :
    statusFromU16 n = .extension n := by
  simp only [knownStatusNum, Bool.or_eq_false_iff, beq_eq_false_iff_ne, ne_eq] at h
  simp [statusFromU16, h]

/-- C3 (amended): the status-code numeric round trip holds for every
code other than InvalidRange and other than Extension codes carrying a
known number; and every u16 not among the known numbers converts to
Extension of itself. -/
theorem rtsp_c3_roundtrip_amended (c : StatusCode) (n : Nat)
    (h1 : c ≠ .invalidRange)
    (h2 : ∀ k, c = .extension k → knownStatusNum k = false)
    (h3 : n < 65536) (h4 : knownStatusNum n = false) :
    statusFromU16 (statusToU16 c) = c ∧ statusFromU16 n = .extension n := by
  refine ⟨?_, statusFromU16_unknown n h4⟩
  cases c
  case invalidRange => exact absurd rfl h1
  case extension k =>
    have hk := h2 k rfl
    simpa [statusToU16] using statusFromU16_unknown k hk
  all_goals decide

/-- Witness for C3 at the Ok code and the unknown number 599. -/
theorem rtsp_c3_roundtrip_amended_witness :
    (StatusCode.ok ≠ .invalidRange ∧ (599 : Nat) < 65536 ∧
      knownStatusNum 599 = false) ∧
    statusFromU16 (statusToU16 .ok) = .ok ∧ statusFromU16 599 = .extension 599 :=
  ⟨⟨by decide, by decide, by decide⟩,
    rtsp_c3_roundtrip_amended .ok 599 (by decide) (fun _ hk => nomatch hk)
      (by decide) (by decide)⟩

/-- C3 counterexample: InvalidRange converts to 456 and back to
HeaderFieldNotValidForResource, and Extension 200 converts back to Ok,
so the round trip does not hold for every code. -/
theorem rtsp_c3_counterexample :
    statusFromU16 (statusToU16 .invalidRange) = .headerFieldNotValidForResource ∧
    statusFromU16 (statusToU16 .invalidRange) ≠ .invalidRange ∧
    statusFromU16 (statusToU16 (.extension 200)) = .ok ∧
    statusFromU16 (statusToU16 (.extension 200)) ≠ .extension 200 := by
  decide

/-- C4: for the names CSeq and cseq, differing only in ASCII case,
equality, ordering and map lookup agree with case-folded comparison,
but the Hash implementation feeds the raw unfolded bytes to the
hasher, so the two equal names hash differently. -/
theorem rtsp_c4_hash_not_case_insensitive :
    nameEqB (str ("CSeq")) (str ("cseq")) = true ∧
    nameCmp (str ("CSeq")) (str ("cseq")) = .eq ∧
    hdrGet [(str ("CSeq"), str ("1"))] (str ("cseq")) = some (str ("1")) ∧
    hdrGet [(str ("CSeq"), str ("1"))] (str ("CSeq")) = some (str ("1")) ∧
    nameHashBytes (str ("CSeq")) ≠ nameHashBytes (str ("cseq")) := by
  decide

/-- C5: on any input made of a well-formed request or status line, a
well-formed header section containing a Content-Length whose value
does not parse as a usize, and arbitrary following bytes, parse is the
fatal Error, never Incomplete. -/
theorem rtsp_c5_bad_content_length_fatal :
    (∀ (m : Method) (uri : Option (List Nat)) (v : Version) (hs : HeadersL)
        (cv rest : List Nat),
      methodWfB m = true → uriWfB uri = true → (∀ x ∈ hs, headerWfB x = true) →
      findContentLength hs = some cv → parseUnsigned (2 ^ 64) cv = none →
      Msg.parse (serRequestLine m uri v ++ (serHeaders hs ++ crlfBytes ++ rest)) =
        .error) ∧
    (∀ (v : Version) (s : StatusCode) (reason : List Nat) (hs : HeadersL)
        (cv rest : List Nat),
      100 ≤ statusToU16 s → statusToU16 s ≤ 999 →
      statusFromU16 (statusToU16 s) = s →
      containsCRLF reason = false → utf8Valid reason = true →
      (∀ x ∈ hs, headerWfB x = true) →
      findContentLength hs = some cv → parseUnsigned (2 ^ 64) cv = none →
      Msg.parse (serStatusLine v s reason ++ (serHeaders hs ++ crlfBytes ++ rest)) =
        .error) := by
  constructor
  · intro m uri v hs cv rest hm hu hh hfind hbad
    have hstage : pbind (contentLengthP hs) (fun n => pbind (pTake n) (fun body =>
        pPure (⟨m, uri, v, hs, body⟩ : RequestR))) rest = .failure := by
      have hbad2 : parseUnsigned 18446744073709551616 cv = none := hbad
      simp [pbind, contentLengthP, hfind, hbad, hbad2]
    have := (messageP_request_stage m uri v hs rest hm hu hh).2 hstage
    simp only [List.append_assoc] at this
    simp [Msg.parse, this]
  · intro v s reason hs cv rest h1 h2 hround hr1 hr2 hh hfind hbad
    have hstage : pbind (contentLengthP hs) (fun n => pbind (pTake n) (fun body =>
        pPure (⟨v, s, reason, hs, body⟩ : ResponseR))) rest = .failure := by
      have hbad2 : parseUnsigned 18446744073709551616 cv = none := hbad
      simp [pbind, contentLengthP, hfind, hbad, hbad2]
    have := (messageP_response_stage v s reason hs rest h1 h2 hround hr1 hr2 hh).2 hstage
    simp only [List.append_assoc] at this
    simp [Msg.parse, this]

/-- Witness for C5 at the bad value from the source test suite. -/
theorem rtsp_c5_bad_content_length_fatal_witness :
    (methodWfB .options = true ∧ uriWfB none = true ∧
      (∀ x ∈ [(contentLengthName, str ("bad"))], headerWfB x = true) ∧
      findContentLength [(contentLengthName, str ("bad"))] = some (str ("bad")) ∧
      parseUnsigned (2 ^ 64) (str ("bad")) = none) ∧
    Msg.parse (serRequestLine .options none .v2_0 ++
      (serHeaders [(contentLengthName, str ("bad"))] ++ crlfBytes ++
        str ("0123456789"))) = .error :=
  ⟨⟨by decide, by decide, by decide, by decide, by decide⟩,
    rtsp_c5_bad_content_length_fatal.1 .options none .v2_0
      [(contentLengthName, str ("bad"))] (str ("bad")) (str ("0123456789"))
      (by decide) (by decide) (by decide) (by decide) (by decide)⟩

/-- C6: the parser is a total function of the input bytes: on every
byte list it returns ok with a consumed count bounded by the input
length, or Incomplete, or Error. -/
theorem rtsp_c6_parse_total (input : List Nat) :
    Msg.parse input = .incomplete ∨ Msg.parse input = .error ∨
      ∃ m n, Msg.parse input = .ok m n ∧ n ≤ input.length := by
  unfold Msg.parse
  cases h1 : messageP input with
  | ok rem m =>
    cases h2 : m.toOwned with
    | some msg =>
      exact Or.inr (Or.inr ⟨msg, input.length - rem.length, by simp [h2], Nat.sub_le _ _⟩)
    | none => exact Or.inr (Or.inl (by simp [h2]))
  | incomplete => exact Or.inl rfl
  | error => exact Or.inr (Or.inl rfl)
  | failure => exact Or.inr (Or.inl rfl)

/-- C7: for input starting with the dollar byte followed by a channel
byte and a big-endian u16 length L, parse yields a Data message with
that channel and exactly the L following bytes, consuming 4 + L bytes;
with fewer than 4 + L bytes available the result is Incomplete. -/
theorem rtsp_c7_interleaved_data (ch hi lo : Nat) (tail : List Nat)
    (hch : ch < 256) (hhi : hi < 256) (hlo : lo < 256) :
    (hi * 256 + lo ≤ tail.length →
      Msg.parse (36 :: ch :: hi :: lo :: tail) =
        .ok (.data ⟨ch, tail.take (hi * 256 + lo)⟩) (4 + (hi * 256 + lo))) ∧
    (tail.length < hi * 256 + lo →
      Msg.parse (36 :: ch :: hi :: lo :: tail) = .incomplete) ∧
    Msg.parse [36] = .incomplete ∧ Msg.parse [36, ch] = .incomplete ∧
    Msg.parse [36, ch, hi] = .incomplete := by
  refine ⟨?_, ?_, ?_, ?_, ?_⟩
  · intro hle
    have hstep := (messageP_data_frame ch hi lo tail).1 hle
    simp [Msg.parse, hstep, MsgR.toOwned, List.length_drop]
    omega
  · intro hlt
    have hstep := (messageP_data_frame ch hi lo tail).2 hlt
    simp [Msg.parse, hstep]
  · have hskip := pmany0_crlfP_no_crlf 36 ([] : List Nat) (by decide)
    have hd : dataP [36] = .incomplete := by
      simp [dataP, pbind, pChar, pTake]
    simp [Msg.parse, messageP, pbind, hskip, palt, pmap, pPure, hd]
  · have hskip := pmany0_crlfP_no_crlf 36 [ch] (by decide)
    have hd : dataP [36, ch] = .incomplete := by
      simp [dataP, pbind, pChar, pTake, pBeU16]
    simp [Msg.parse, messageP, pbind, hskip, palt, pmap, pPure, hd]
  · have hskip := pmany0_crlfP_no_crlf 36 [ch, hi] (by decide)
    have hd : dataP [36, ch, hi] = .incomplete := by
      simp [dataP, pbind, pChar, pTake, pBeU16]
    simp [Msg.parse, messageP, pbind, hskip, palt, pmap, pPure, hd]

/-- Witness for C7 at the concrete frame from the specification. -/
theorem rtsp_c7_interleaved_data_witness :
    ((12 : Nat) < 256 ∧ (0 : Nat) < 256 ∧ (10 : Nat) < 256 ∧
      0 * 256 + 10 ≤ ([0, 1, 2, 3, 4, 5, 6, 7, 8, 9, 97, 98] : List Nat).length) ∧
    Msg.parse [36, 12, 0, 10, 0, 1, 2, 3, 4, 5, 6, 7, 8, 9, 97, 98] =
      .ok (.data ⟨12, [0, 1, 2, 3, 4, 5, 6, 7, 8, 9]⟩) 14 := by
  refine ⟨⟨by decide, by decide, by decide, by decide⟩, ?_⟩
  have := (rtsp_c7_interleaved_data 12 0 10 [0, 1, 2, 3, 4, 5, 6, 7, 8, 9, 97, 98]
    (by decide) (by decide) (by decide)).1 (by decide)
  simpa using this

/-- C8: appending a value to a header already mapped to a leaves the
header mapped to the single value a, comma, space, value; appending to
an absent header equals inserting it. -/
theorem rtsp_c8_append_semantics :
    (∀ (hs : HeadersL) (n a b : List Nat), hdrSortedB hs = true →
      hdrGet hs n = some a →
      hdrGet (hdrAppend hs n b) n = some (a ++ str (", ") ++ b)) ∧
    (∀ (hs : HeadersL) (n b : List Nat), hdrGet hs n = none →
      hdrAppend hs n b = hdrInsert hs n b) :=
  ⟨fun hs n a b hsort hget => hdrGet_append_existing hs n a b hsort hget,
   fun hs n b hget => hdrAppend_absent_eq_insert hs n b hget⟩

/-- Witness for C8 at concrete header values. -/
theorem rtsp_c8_append_semantics_witness :
    (hdrSortedB [(str ("Supported"), str ("play.basic"))] = true ∧
      hdrGet [(str ("Supported"), str ("play.basic"))] (str ("Supported")) =
        some (str ("play.basic")) ∧
      hdrGet ([] : HeadersL) (str ("Require")) = none) ∧
    hdrGet (hdrAppend [(str ("Supported"), str ("play.basic"))] (str ("Supported"))
        (str ("play.scale"))) (str ("Supported")) =
      some (str ("play.basic") ++ str (", ") ++ str ("play.scale")) ∧
    hdrAppend ([] : HeadersL) (str ("Require")) (str ("x")) =
      hdrInsert ([] : HeadersL) (str ("Require")) (str ("x")) :=
  ⟨⟨by decide, by decide, by decide⟩,
   rtsp_c8_append_semantics.1 _ _ _ _ (by decide) (by decide),
   rtsp_c8_append_semantics.2 _ _ _ (by decide)⟩

/-- C9 (amended): the typed CSeq value is an unsigned 128-bit integer:
on a pure digit string, from_headers succeeds exactly when the value is
below 2 to the 128 and fails as a header parse error above. -/
theorem rtsp_c9_cseq_u128_amended (v : List Nat) (hne : v ≠ [])
    (hd : ∀ b ∈ v, isDigitB b = true) :
    cseqFromHeaders [(cseqName, v)] =
      (if digitsNat v < 2 ^ 128 then .ok (some (digitsNat v)) else .err) := by
  have hget : hdrGet [(cseqName, v)] cseqName = some v := by
    simp [hdrGet, nameCmp_self]
  have hp := parseUnsigned_all_digits (2 ^ 128) v hne hd
  have hp2 : parseUnsigned 340282366920938463463374607431768211456 v =
      if digitsNat v < 340282366920938463463374607431768211456 then
        some (digitsNat v) else none := hp
  by_cases hlt : digitsNat v < 2 ^ 128
  · have hlt2 : digitsNat v < 340282366920938463463374607431768211456 := hlt
    simp [cseqFromHeaders, hget, hp2, hlt2]
  · have hlt2 : ¬ digitsNat v < 340282366920938463463374607431768211456 := hlt
    simp [cseqFromHeaders, hget, hp2, hlt2]

/-- Witness for C9 at the value one past the 32-bit range. -/
theorem rtsp_c9_cseq_u128_amended_witness :
    (str ("4294967296") ≠ [] ∧ ∀ b ∈ str ("4294967296"), isDigitB b = true) ∧
    cseqFromHeaders [(cseqName, str ("4294967296"))] = .ok (some 4294967296) := by
  refine ⟨⟨by decide, by decide⟩, ?_⟩
  have := rtsp_c9_cseq_u128_amended (str ("4294967296")) (by decide) (by decide)
  have e : digitsNat (str ("4294967296")) = 4294967296 := by decide
  rw [e] at this
  rw [if_pos (by norm_num)] at this
  exact this

/-- C9 counterexample: a CSeq value above the 32-bit range is accepted
by from_headers rather than rejected as malformed. -/
theorem rtsp_c9_counterexample :
    cseqFromHeaders [(cseqName, str ("4294967296"))] = .ok (some 4294967296) ∧
    2 ^ 32 - 1 < 4294967296 := by
  decide

/-- C10: serializing a Data message writes the body length reduced
modulo 2 to the 16 into the length field while emitting every body
byte, so a body of 65536 bytes or more serializes to a frame whose
length field differs from the body length, and no parse of that frame
returns the original message. -/
theorem rtsp_c10_data_length_truncated (ch : Nat) (body : List Nat)
    (h : 65536 ≤ body.length) :
    serData ⟨ch, body⟩ = 36 :: ch :: (body.length % 65536 / 256) ::
      (body.length % 65536 % 256) :: body ∧
    body.length % 65536 ≠ body.length ∧
    ∀ n, Msg.parse (serData ⟨ch, body⟩) ≠ .ok (.data ⟨ch, body⟩) n := by
  refine ⟨by simp [serData], by omega, ?_⟩
  intro n hcon
  have hL : (body.length % 65536 / 256) * 256 + body.length % 65536 % 256 =
      body.length % 65536 := by omega
  have hstep := (messageP_data_frame ch (body.length % 65536 / 256)
    (body.length % 65536 % 256) body).1 (by omega)
  rw [hL] at hstep
  have hparse : Msg.parse (serData ⟨ch, body⟩) =
      .ok (.data ⟨ch, body.take (body.length % 65536)⟩)
        ((36 :: ch :: (body.length % 65536 / 256) :: (body.length % 65536 % 256) ::
          body).length - (body.drop (body.length % 65536)).length) := by
    rw [show serData ⟨ch, body⟩ = 36 :: ch :: (body.length % 65536 / 256) ::
      (body.length % 65536 % 256) :: body from by simp [serData]]
    simp [Msg.parse, hstep, MsgR.toOwned]
  rw [hparse] at hcon
  have hlen : (body.take (body.length % 65536)).length = body.length % 65536 := by
    simp
    omega
  simp only [ParseOutcome.ok.injEq, Msg.data.injEq, DataO.mk.injEq] at hcon
  have := congrArg List.length hcon.1.2
  rw [hlen] at this
  omega

/-- Witness for C10 at a body of exactly 65536 zero bytes. -/
theorem rtsp_c10_data_length_truncated_witness :
    65536 ≤ (List.replicate 65536 0).length ∧
    ((List.replicate 65536 0).length % 65536 ≠ (List.replicate 65536 0).length ∧
      ∀ n, Msg.parse (serData ⟨7, List.replicate 65536 0⟩) ≠
        .ok (.data ⟨7, List.replicate 65536 0⟩) n) := by
  have h : 65536 ≤ (List.replicate 65536 (0 : Nat)).length := by
    rw [List.length_replicate]
  have := rtsp_c10_data_length_truncated 7 (List.replicate 65536 0) h
  exact ⟨h, this.2.1, this.2.2⟩

end Rtsp
